import Mathlib

/-!
RISC-V assembler: encoders, register table and dispatcher.

A shallow embedding of `src/assembler_code.cpp`.

* `std::string` is `String`, `std::vector<std::string>` is `List String`. The
  source classifies bytes (white space, digits, sign, comma), all of them ASCII;
  the model classifies characters the same way, and every string an encoder
  builds is ASCII, so its length in characters is its length in bytes.
* C++ `int` values are `Int`; every `int` that occurs is produced by `stoi`
  (which rejects values outside the 32-bit range) or by the register table,
  so no arithmetic on them can overflow.
* A call that lets a C++ exception escape returns `Except.error`; a call that
  returns a string `s` returns `Except.ok s`.
* The diagnostic written to `cerr` by `Register::getRegNumber` is not modelled.
-/

deriving instance DecidableEq for Except

namespace RiscvAssembler

/-! ## Standard-library functions used by the source -/

/-- The exceptions `std::stoi` can throw. -/
inductive StdException
  | invalid_argument
  | out_of_range
deriving DecidableEq, Repr

/-- Classification `isspace` of the C locale: space, `\t`, `\n`, `\v`, `\f`, `\r`. -/
def isspace (c : Char) : Bool :=
  c == ' ' || c == '\t' || c == '\n' || c == '\x0b' || c == '\x0c' || c == '\r'

/-- Decimal digit test. -/
def isdigit (c : Char) : Bool :=
  '0'.toNat ≤ c.toNat && c.toNat ≤ '9'.toNat

/-- Drop the leading white space of a character sequence. -/
def skipSpace : List Char → List Char
  | [] => []
  | c :: cs => if isspace c then skipSpace cs else c :: cs

/-- The values of the longest prefix of decimal digits. -/
def takeDigits : List Char → List Nat
  | [] => []
  | c :: cs => if isdigit c then (c.toNat - '0'.toNat) :: takeDigits cs else []

/-- Value of a digit sequence, most significant digit first. -/
def digitsValue (ds : List Nat) : Nat :=
  ds.foldl (fun acc d => 10 * acc + d) 0

/-- Split an optional sign off a character sequence: `(negative, rest)`. -/
def takeSign : List Char → Bool × List Char
  | '-' :: cs => (true, cs)
  | '+' :: cs => (false, cs)
  | cs => (false, cs)

/-- The function `std::stoi(str)` (base 10, no position argument): leading white
space is skipped, an optional sign is read, then the longest run of decimal
digits; what follows the digits is ignored. Without a digit the call throws
`invalid_argument`; a value that does not fit a 32-bit `int` throws
`out_of_range`. -/
def stoi (str : String) : Except StdException Int :=
  let signed := takeSign (skipSpace str.data)
  let ds := takeDigits signed.2
  if ds = [] then Except.error StdException.invalid_argument
  else
    let v : Int := if signed.1 then -(digitsValue ds : Int) else (digitsValue ds : Int)
    if v < -2147483648 ∨ v > 2147483647 then Except.error StdException.out_of_range
    else Except.ok v

/-- The function `std::to_string(int)`: the decimal numeral of `i`. -/
def to_string (i : Int) : String :=
  toString i

/-- The expression `std::bitset<N>(v).to_string()` for an `int` argument `v`. The
argument is converted to `unsigned long long` (reduction modulo `2^64`), the
bitset keeps the low `N` bits, and `to_string` writes bit `N-1` first. -/
def bitset (N : Nat) (v : Int) : String :=
  String.mk ((List.range N).map fun p =>
    if (v % 2 ^ 64).toNat / 2 ^ (N - 1 - p) % 2 = 1 then '1' else '0')

/-- The call `s.substr(pos, len)`. Every call site applies it to a bitset string
with `pos` at most its length, so the `out_of_range` case of `substr` cannot
occur. -/
def substr (s : String) (pos len : Nat) : String :=
  String.mk ((s.data.drop pos).take len)

/-- The expression `string(1, s[i])`: the one-character string holding character
`i` of `s` (`s[s.size()]` is the null character). -/
def string1 (s : String) (i : Nat) : String :=
  String.mk [s.data.getD i '\x00']

/-! ## Maps keyed by strings (`unordered_map<string, T>`) -/

/-- Lookup `m.find(k)`: the value bound to `k`, if any. -/
def mapFind {β : Type} : List (String × β) → String → Option β
  | [], _ => none
  | (k', v) :: m, k => if k' = k then some v else mapFind m k

/-- Assignment `m[k] = v`: rebinds `k` if present, adds it otherwise. -/
def mapAssign {β : Type} : List (String × β) → String → β → List (String × β)
  | [], k, v => [(k, v)]
  | (k', v') :: m, k, v => if k' = k then (k, v) :: m else (k', v') :: mapAssign m k v

/-! ## `class Register` -/

/-- The register table: `reg_map` binds register names to indices. -/
structure Register where
  reg_map : List (String × Int)

/-- The constructor `Register::Register()`:
`for (int i = 0; i <= 31; i++) reg_map["x" + to_string(i)] = i;`. -/
def Register.new : Register :=
  ⟨(List.range 32).foldl (fun m i => mapAssign m ("x" ++ to_string (i : Int)) (i : Int)) []⟩

/-- The method `Register::getRegNumber`: the index bound to `reg`, or `-1`. -/
def Register.getRegNumber (self : Register) (reg : String) : Int :=
  match mapFind self.reg_map reg with
  | some n => n
  | none => -1

/-! ## The six encoders -/

/-- The statement `try { imm = stoi(tok); } catch (const invalid_argument &) { return
"Invalid Immediate"; }` followed by `body imm`: an `invalid_argument` is turned
into the sentinel, an `out_of_range` is not caught and leaves the encoder. -/
def withImmediate (parsed : Except StdException Int)
    (body : Int → Except StdException String) : Except StdException String :=
  match parsed with
  | Except.ok imm => body imm
  | Except.error StdException.invalid_argument => Except.ok "Invalid Immediate"
  | Except.error StdException.out_of_range => Except.error StdException.out_of_range

/-- The method `RTypeInstruction::assemble`. -/
def RTypeInstruction.assemble (tokens : List String) (reg : Register) :
    Except StdException String :=
  match tokens with
  | [t0, t1, t2, t3] =>
    let rd := reg.getRegNumber t1
    let rs1 := reg.getRegNumber t2
    let rs2 := reg.getRegNumber t3
    if rd = -1 ∨ rs1 = -1 ∨ rs2 = -1 then Except.ok "Invalid Register"
    else
      let opcode := "0110011"
      let rs2_bin := bitset 5 rs2
      let rs1_bin := bitset 5 rs1
      let rd_bin := bitset 5 rd
      if t0 = "ADD" then
        Except.ok ("0000000" ++ rs2_bin ++ rs1_bin ++ "000" ++ rd_bin ++ opcode)
      else if t0 = "SUB" then
        Except.ok ("0100000" ++ rs2_bin ++ rs1_bin ++ "000" ++ rd_bin ++ opcode)
      else if t0 = "AND" then
        Except.ok ("0000000" ++ rs2_bin ++ rs1_bin ++ "111" ++ rd_bin ++ opcode)
      else if t0 = "OR" then
        Except.ok ("0000000" ++ rs2_bin ++ rs1_bin ++ "110" ++ rd_bin ++ opcode)
      else Except.ok "Unsupported R-type Instruction"
  | _ => Except.ok "Invalid Format"

/-- The method `ITypeInstruction::assemble`. -/
def ITypeInstruction.assemble (tokens : List String) (reg : Register) :
    Except StdException String :=
  match tokens with
  | [t0, t1, t2, t3] =>
    let rd := reg.getRegNumber t1
    let rs1 := reg.getRegNumber t2
    if rd = -1 ∨ rs1 = -1 then Except.ok "Invalid Register"
    else withImmediate (stoi t3) fun imm =>
      let imm_bin := bitset 12 imm
      let rs1_bin := bitset 5 rs1
      let rd_bin := bitset 5 rd
      if t0 = "ADDI" then
        Except.ok (imm_bin ++ rs1_bin ++ "000" ++ rd_bin ++ "0010011")
      else if t0 = "ANDI" then
        Except.ok (imm_bin ++ rs1_bin ++ "111" ++ rd_bin ++ "0010011")
      else if t0 = "SRLI" then
        if imm < 0 ∨ imm > 31 then Except.ok "Invalid Shift Amount"
        else
          let shamt_bin := bitset 5 imm
          Except.ok ("0000000" ++ shamt_bin ++ rs1_bin ++ "101" ++ rd_bin ++ "0010011")
      else Except.ok "Unsupported I-type Instruction"
  | _ => Except.ok "Invalid Format"

/-- The method `LoadInstruction::assemble`. -/
def LoadInstruction.assemble (tokens : List String) (reg : Register) :
    Except StdException String :=
  match tokens with
  | [t0, t1, t2, t3] =>
    let rd := reg.getRegNumber t1
    let rs1 := reg.getRegNumber t2
    if rd = -1 ∨ rs1 = -1 then Except.ok "Invalid Register"
    else withImmediate (stoi t3) fun imm =>
      if imm < -2048 ∨ imm > 2047 then Except.ok "Immediate out of range"
      else
        let imm_bin := bitset 12 imm
        let rd_bin := bitset 5 rd
        let rs1_bin := bitset 5 rs1
        if t0 = "LW" then Except.ok (imm_bin ++ rs1_bin ++ "010" ++ rd_bin ++ "0000011")
        else if t0 = "LB" then Except.ok (imm_bin ++ rs1_bin ++ "000" ++ rd_bin ++ "0000011")
        else if t0 = "LH" then Except.ok (imm_bin ++ rs1_bin ++ "001" ++ rd_bin ++ "0000011")
        else if t0 = "LBU" then Except.ok (imm_bin ++ rs1_bin ++ "100" ++ rd_bin ++ "0000011")
        else if t0 = "LHU" then Except.ok (imm_bin ++ rs1_bin ++ "101" ++ rd_bin ++ "0000011")
        else Except.ok "Unsupported Load Instruction"
  | _ => Except.ok "Invalid Format"

/-- The method `StoreInstruction::assemble`. -/
def StoreInstruction.assemble (tokens : List String) (reg : Register) :
    Except StdException String :=
  match tokens with
  | [_, t1, t2, t3] =>
    let rs2 := reg.getRegNumber t1
    let rs1 := reg.getRegNumber t2
    if rs2 = -1 ∨ rs1 = -1 then Except.ok "Invalid Register"
    else withImmediate (stoi t3) fun imm =>
      if imm < -2048 ∨ imm > 2047 then Except.ok "Immediate out of range"
      else
        let imm_bin := bitset 12 imm
        let rs2_bin := bitset 5 rs2
        let rs1_bin := bitset 5 rs1
        let funct3 := "010"
        let opcode := "0100011"
        Except.ok (substr imm_bin 0 7 ++ rs2_bin ++ rs1_bin ++ funct3 ++ substr imm_bin 7 5
          ++ opcode)
  | _ => Except.ok "Invalid Format"

/-- The method `BTypeInstruction::assemble`. -/
def BTypeInstruction.assemble (tokens : List String) (reg : Register) :
    Except StdException String :=
  match tokens with
  | [t0, t1, t2, t3] =>
    let rs1 := reg.getRegNumber t1
    let rs2 := reg.getRegNumber t2
    if rs1 = -1 ∨ rs2 = -1 then Except.ok "Invalid Register"
    else withImmediate (stoi t3) fun imm =>
      let imm_bin := bitset 12 imm
      let rs1_bin := bitset 5 rs1
      let rs2_bin := bitset 5 rs2
      let word := fun (funct3 : String) =>
        string1 imm_bin 0 ++ substr imm_bin 2 6 ++ rs2_bin ++ rs1_bin ++ funct3
          ++ string1 imm_bin 1 ++ substr imm_bin 8 4 ++ "1100011"
      if t0 = "BEQ" then Except.ok (word "000")
      else if t0 = "BNE" then Except.ok (word "001")
      else if t0 = "BLT" then Except.ok (word "100")
      else if t0 = "BGE" then Except.ok (word "101")
      else Except.ok "Unsupported B-type Instruction"
  | _ => Except.ok "Invalid Format"

/-- The method `JTypeInstruction::assemble`. The division `imm / 2` of C++ truncates
toward zero. -/
def JTypeInstruction.assemble (tokens : List String) (reg : Register) :
    Except StdException String :=
  match tokens with
  | [_, t1, t2] =>
    let rd := reg.getRegNumber t1
    if rd = -1 then Except.ok "Invalid Register"
    else withImmediate (stoi t2) fun imm0 =>
      let imm := Int.tdiv imm0 2
      if imm < -1048576 ∨ imm > 1048575 then Except.ok "Immediate out of range"
      else
        let imm_bin := bitset 20 imm
        let rd_bin := bitset 5 rd
        let opcode := "1101111"
        Except.ok (string1 imm_bin 0 ++ substr imm_bin 10 10 ++ string1 imm_bin 9
          ++ substr imm_bin 1 8 ++ rd_bin ++ opcode)
  | _ => Except.ok "Invalid Format"

/-! ## `class Assembler` -/

/-- The six subclasses of `Instruction`. -/
inductive Instruction
  | RType
  | IType
  | Load
  | Store
  | BType
  | JType
deriving DecidableEq, Repr

/-- The virtual call `instr->assemble(tokens, reg)`. -/
def Instruction.assemble (instr : Instruction) (tokens : List String) (reg : Register) :
    Except StdException String :=
  match instr with
  | Instruction.RType => RTypeInstruction.assemble tokens reg
  | Instruction.IType => ITypeInstruction.assemble tokens reg
  | Instruction.Load => LoadInstruction.assemble tokens reg
  | Instruction.Store => StoreInstruction.assemble tokens reg
  | Instruction.BType => BTypeInstruction.assemble tokens reg
  | Instruction.JType => JTypeInstruction.assemble tokens reg

/-- The members of `Assembler`. -/
structure Assembler where
  instructionSet : List (String × Instruction)
  reg : Register

/-- The constructor `Assembler::Assembler()`, its assignments in source order. -/
def Assembler.new : Assembler :=
  let m0 : List (String × Instruction) := []
  let m1 := mapAssign m0 "ADDI" Instruction.IType
  let m2 := mapAssign m1 "ANDI" Instruction.IType
  let m3 := mapAssign m2 "SRLI" Instruction.IType
  let m4 := mapAssign m3 "SUB" Instruction.RType
  let m5 := mapAssign m4 "ADD" Instruction.RType
  let m6 := mapAssign m5 "AND" Instruction.RType
  let m7 := mapAssign m6 "OR" Instruction.RType
  let m8 := mapAssign m7 "LB" Instruction.Load
  let m9 := mapAssign m8 "LH" Instruction.Load
  let m10 := mapAssign m9 "LW" Instruction.Load
  let m11 := mapAssign m10 "LBU" Instruction.Load
  let m12 := mapAssign m11 "LHU" Instruction.Load
  let m13 := mapAssign m12 "SB" Instruction.Store
  let m14 := mapAssign m13 "SH" Instruction.Store
  let m15 := mapAssign m14 "SW" Instruction.Store
  let m16 := mapAssign m15 "BGE" Instruction.BType
  let m17 := mapAssign m16 "JAL" Instruction.JType
  ⟨m17, Register.new⟩

/-- The loop `while (ss >> token)` over the characters still to be read; `cur` holds
the characters of the token being read, last one first. Extraction skips white
space and ends a token at the next white space or at the end of the line. -/
def extractTokens : List Char → List Char → List String
  | [], cur => if cur = [] then [] else [String.mk cur.reverse]
  | c :: cs, cur =>
    if isspace c then
      if cur = [] then extractTokens cs [] else String.mk cur.reverse :: extractTokens cs []
    else extractTokens cs (c :: cur)

/-- The statement `token.erase(remove(token.begin(), token.end(), ','), token.end())`. -/
def removeCommas (token : String) : String :=
  String.mk (token.data.filter fun c => c != ',')

/-- The method `Assembler::tokenize`. -/
def Assembler.tokenize (line : String) : List String :=
  (extractTokens line.data []).map removeCommas

/-- The method `Assembler::encodeInstruction`. -/
def Assembler.encodeInstruction (self : Assembler) (line : String) :
    Except StdException String :=
  let tokens := Assembler.tokenize line
  match tokens with
  | [] => Except.ok ""
  | opcode :: _ =>
    match mapFind self.instructionSet opcode with
    | some instr => instr.assemble tokens self.reg
    | none => Except.ok "Unknown Instruction"

/-! ## Notions used to state the specification

These definitions follow the wording of the specification, not the source; the
theorems below relate them to the encoders. -/

namespace Spec

/-- The name `x<n>` of register `n`: the letter `x` and the canonical decimal
numeral of `n`. -/
def regName (n : Nat) : String :=
  "x" ++ Nat.repr n

/-- The `w`-character binary numeral of `m` (of `m` modulo `2^w`), most significant
digit first. -/
def unsignedBin : Nat → Nat → String
  | 0, _ => ""
  | w + 1, m => unsignedBin w (m / 2) ++ (if m % 2 = 1 then "1" else "0")

/-- The unsigned 5-bit binary numeral of `n`. -/
def bin5 (n : Nat) : String :=
  unsignedBin 5 n

/-- The `w`-character string of the low `w` bits of `n` in two's complement, most
significant first. -/
def twos (w : Nat) (n : Int) : String :=
  unsignedBin w (n % 2 ^ w).toNat

/-- The characters `b[i..j]` of `b`, both ends included. -/
def slice (b : String) (i j : Nat) : String :=
  String.mk ((b.data.take (j + 1)).drop i)

/-- The number a string of binary digits denotes when read as an unsigned
numeral, most significant digit first. -/
def readUnsigned (s : String) : Nat :=
  s.data.foldl (fun acc c => 2 * acc + (if c = '1' then 1 else 0)) 0

/-- The number a string of binary digits denotes when read as a two's-complement
signed numeral: the first digit has negative weight. -/
def readSigned (s : String) : Int :=
  if s.data.head? = some '1' then (readUnsigned s : Int) - 2 ^ s.length
  else (readUnsigned s : Int)

/-- Every character of `s` is a binary digit. -/
def binary (s : String) : Prop :=
  ∀ c ∈ s.data, c = '0' ∨ c = '1'

/-- The sentinel messages an encoder can return in place of a word. -/
def sentinels : List String :=
  ["Invalid Format", "Invalid Register", "Invalid Immediate", "Invalid Shift Amount",
   "Immediate out of range", "Unsupported R-type Instruction",
   "Unsupported I-type Instruction", "Unsupported Load Instruction",
   "Unsupported B-type Instruction"]

/-- The pair (funct7, funct3) of a register-register mnemonic. -/
def rtypeFunct (m : String) : String × String :=
  match m with
  | "ADD" => ("0000000", "000")
  | "SUB" => ("0100000", "000")
  | "AND" => ("0000000", "111")
  | "OR" => ("0000000", "110")
  | _ => ("", "")

/-- The funct3 of a branch mnemonic. -/
def branchFunct3 (m : String) : String :=
  match m with
  | "BEQ" => "000"
  | "BNE" => "001"
  | "BLT" => "100"
  | "BGE" => "101"
  | _ => ""

/-- The funct3 of a load mnemonic. -/
def loadFunct3 (m : String) : String :=
  match m with
  | "LB" => "000"
  | "LH" => "001"
  | "LW" => "010"
  | "LBU" => "100"
  | "LHU" => "101"
  | _ => ""

/-- The funct3 of the mnemonics ADDI and ANDI. -/
def immFunct3 (m : String) : String :=
  match m with
  | "ADDI" => "000"
  | "ANDI" => "111"
  | _ => ""

/-- The seventeen mnemonics that the dispatch table binds to an encoder. -/
def wired : List String :=
  ["ADD", "SUB", "AND", "OR", "ADDI", "ANDI", "SRLI", "LB", "LH", "LW", "LBU", "LHU",
   "SB", "SH", "SW", "BGE", "JAL"]

/-- The messages of the per-encoder "unsupported mnemonic" branches. -/
def unsupported : List String :=
  ["Unsupported R-type Instruction", "Unsupported I-type Instruction",
   "Unsupported Load Instruction", "Unsupported B-type Instruction"]

/-- The register-register mnemonics. -/
def rtypeMnemonics : List String :=
  ["ADD", "SUB", "AND", "OR"]

/-- The load mnemonics. -/
def loadMnemonics : List String :=
  ["LB", "LH", "LW", "LBU", "LHU"]

/-- The mnemonics of the immediate arithmetic, logic and shift instructions. -/
def immMnemonics : List String :=
  ["ADDI", "ANDI", "SRLI"]

/-- The branch mnemonics. -/
def branchMnemonics : List String :=
  ["BEQ", "BNE", "BLT", "BGE"]

/-- The encoder `instr` supports the mnemonic `m`: `m` is one of the mnemonics the
encoder distinguishes; the store and jump encoders do not look at the mnemonic. -/
def supportedBy (instr : Instruction) (m : String) : Bool :=
  match instr with
  | Instruction.RType => decide (m ∈ rtypeMnemonics)
  | Instruction.IType => decide (m ∈ immMnemonics)
  | Instruction.Load => decide (m ∈ loadMnemonics)
  | Instruction.Store => true
  | Instruction.BType => decide (m ∈ branchMnemonics)
  | Instruction.JType => true

/-- An optionally signed decimal integer: an optional sign, then one or more decimal
digits, and nothing else. -/
def isSignedDecimal (s : String) : Bool :=
  let body := match s.data with
    | '-' :: cs => cs
    | '+' :: cs => cs
    | cs => cs
  !body.isEmpty && body.all isdigit

/-- The string begins, after optional white space, with an optionally signed
decimal numeral: an optional sign and then at least one decimal digit. What
follows the first digit is not looked at. -/
def startsWithNumeral (s : String) : Bool :=
  match s.data.dropWhile isspace with
  | [] => false
  | c :: cs =>
    if c = '-' ∨ c = '+' then
      match cs with
      | [] => false
      | d :: _ => isdigit d
    else isdigit c

end Spec

/-! ## Lemmas on the register table -/

theorem reg_map_eq :
    Register.new.reg_map = (List.range 32).map fun i => (Spec.regName i, (i : Int)) := by
  decide

theorem mapFind_mem {β : Type} (m : List (String × β)) (k : String) (v : β)
    (h : mapFind m k = some v) : (k, v) ∈ m := by
  induction m with
  | nil => simp [mapFind] at h
  | cons e m ih =>
    obtain ⟨k', v'⟩ := e
    unfold mapFind at h
    split at h
    · rename_i hk
      cases h
      simp [hk]
    · exact List.mem_cons_of_mem _ (ih h)

theorem getRegNumber_regName (n : Nat) (h : n ≤ 31) :
    Register.new.getRegNumber (Spec.regName n) = (n : Int) := by
  have key : ∀ i < 32, Register.new.getRegNumber (Spec.regName i) = (i : Int) := by decide
  exact key n (by omega)

theorem getRegNumber_cases (name : String) :
    Register.new.getRegNumber name = -1 ∨
      ∃ n : Nat, n ≤ 31 ∧ name = Spec.regName n ∧ Register.new.getRegNumber name = (n : Int) := by
  unfold Register.getRegNumber
  cases hf : mapFind Register.new.reg_map name with
  | none => exact Or.inl rfl
  | some v =>
    right
    have hm := mapFind_mem _ _ _ hf
    rw [reg_map_eq, List.mem_map] at hm
    obtain ⟨i, hi, he⟩ := hm
    rw [List.mem_range] at hi
    cases he
    exact ⟨i, by omega, rfl, rfl⟩

/-! ## Lemmas on bit strings -/

theorem bitset_length (N : Nat) (v : Int) : (bitset N v).length = N := by
  simp [bitset, String.length]

theorem bitset_binary (N : Nat) (v : Int) : ∀ c ∈ (bitset N v).data, c = '0' ∨ c = '1' := by
  intro c hc
  simp only [bitset, List.mem_map] at hc
  obtain ⟨p, _, hp⟩ := hc
  split at hp
  · exact Or.inr hp.symm
  · exact Or.inl hp.symm

theorem unsignedBin_data (w m : Nat) :
    (Spec.unsignedBin w m).data =
      (List.range w).map fun p => if m / 2 ^ (w - 1 - p) % 2 = 1 then '1' else '0' := by
  induction w generalizing m with
  | zero => rfl
  | succ w ih =>
    rw [Spec.unsignedBin, String.data_append, ih, List.range_succ, List.map_append]
    congr 1
    · apply List.map_congr_left
      intro p hp
      rw [List.mem_range] at hp
      have e : w + 1 - 1 - p = (w - 1 - p) + 1 := by omega
      rw [e, pow_succ, Nat.div_div_eq_div_mul, Nat.mul_comm]
    · simp
      split <;> rfl

theorem unsignedBin_mod (w m : Nat) :
    Spec.unsignedBin w (m % 2 ^ w) = Spec.unsignedBin w m := by
  apply String.ext
  rw [unsignedBin_data, unsignedBin_data]
  apply List.map_congr_left
  intro p hp
  rw [List.mem_range] at hp
  obtain ⟨k, hk⟩ : ∃ k, k = w - 1 - p := ⟨_, rfl⟩
  have e : w = k + (p + 1) := by omega
  have : m % 2 ^ w / 2 ^ k % 2 = m / 2 ^ k % 2 := by
    rw [e, pow_add, Nat.mod_mul_right_div_self,
      Nat.mod_mod_of_dvd _ (dvd_pow_self 2 (Nat.succ_ne_zero p))]
  rw [← hk, this]

theorem bitset_eq_twos (N : Nat) (v : Int) (hN : N ≤ 64) : bitset N v = Spec.twos N v := by
  have h64 : (v % 2 ^ 64).toNat % 2 ^ N = (v % 2 ^ N).toNat := by
    have hd : ((2 : Int) ^ N) ∣ 2 ^ 64 := pow_dvd_pow 2 hN
    have h1 : (0 : Int) ≤ v % 2 ^ 64 := Int.emod_nonneg _ (by positivity)
    have h2 : (0 : Int) ≤ v % 2 ^ N := Int.emod_nonneg _ (by positivity)
    zify
    rw [Int.toNat_of_nonneg h1, Int.toNat_of_nonneg h2]
    exact Int.emod_emod_of_dvd v hd
  unfold Spec.twos
  rw [← h64, unsignedBin_mod]
  apply String.ext
  rw [unsignedBin_data]
  rfl

theorem bitset_eq_bin5 (n : Nat) (h : n ≤ 31) : bitset 5 (n : Int) = Spec.bin5 n := by
  rw [bitset_eq_twos 5 _ (by decide)]
  unfold Spec.twos Spec.bin5
  congr 1
  omega

theorem readUnsigned_bin5 (n : Nat) (h : n ≤ 31) : Spec.readUnsigned (Spec.bin5 n) = n := by
  have key : ∀ i < 32, Spec.readUnsigned (Spec.bin5 i) = i := by decide
  exact key n (by omega)

/-! ## Lemmas on the shape of encoded words -/

theorem substr_length (s : String) (pos len : Nat) :
    (substr s pos len).length = min len (s.length - pos) := by
  show ((s.data.drop pos).take len).length = _
  rw [List.length_take, List.length_drop]
  rfl

theorem substr_mem (s : String) (pos len : Nat) (c : Char) (h : c ∈ (substr s pos len).data) :
    c ∈ s.data :=
  List.mem_of_mem_drop (List.mem_of_mem_take h)

theorem string1_length (s : String) (i : Nat) : (string1 s i).length = 1 := rfl

theorem string1_mem (s : String) (i : Nat) (hi : i < s.length) (c : Char)
    (h : c ∈ (string1 s i).data) : c ∈ s.data := by
  have hi' : i < s.data.length := hi
  have h' : c = s.data.getD i '\x00' := List.mem_singleton.mp h
  rw [h', List.getD_eq_getElem _ _ hi']
  exact List.getElem_mem _

theorem binary_append (s t : String) (hs : Spec.binary s) (ht : Spec.binary t) :
    Spec.binary (s ++ t) := by
  intro c hc
  rw [String.data_append, List.mem_append] at hc
  rcases hc with h | h
  · exact hs c h
  · exact ht c h

theorem binary_bitset (N : Nat) (v : Int) : Spec.binary (bitset N v) :=
  bitset_binary N v

theorem binary_substr (s : String) (pos len : Nat) (hs : Spec.binary s) :
    Spec.binary (substr s pos len) :=
  fun c hc => hs c (substr_mem s pos len c hc)

theorem binary_string1 (N : Nat) (v : Int) (i : Nat) (hi : i < N) :
    Spec.binary (string1 (bitset N v) i) :=
  fun c hc => bitset_binary N v c
    (string1_mem _ i (by rw [bitset_length]; exact hi) c hc)

theorem withImmediate_ok (parsed : Except StdException Int)
    (body : Int → Except StdException String) (s : String)
    (h : withImmediate parsed body = Except.ok s) :
    s = "Invalid Immediate" ∨ ∃ imm, parsed = Except.ok imm ∧ body imm = Except.ok s := by
  unfold withImmediate at h
  split at h
  · exact Or.inr ⟨_, rfl, h⟩
  · exact Or.inl (Except.ok.inj h).symm
  · cases h

theorem rtype_shape (tokens : List String) (reg : Register) (s : String)
    (h : RTypeInstruction.assemble tokens reg = Except.ok s) :
    s ∈ Spec.sentinels ∨ (s.length = 32 ∧ Spec.binary s) := by
  unfold RTypeInstruction.assemble at h
  split at h
  · simp only at h
    split_ifs at h <;> cases h
    all_goals first
      | exact Or.inl (by decide)
      | (right
         refine ⟨by simp [String.length_append, bitset_length]; rfl, ?_⟩
         repeat first
           | apply binary_append
           | apply binary_bitset
           | (intro c hc; revert c; decide))
  · cases h
    exact Or.inl (by decide)

theorem itype_shape (tokens : List String) (reg : Register) (s : String)
    (h : ITypeInstruction.assemble tokens reg = Except.ok s) :
    s ∈ Spec.sentinels ∨ (s.length = 32 ∧ Spec.binary s) := by
  unfold ITypeInstruction.assemble at h
  split at h
  · rename_i t0 t1 t2 t3
    dsimp only at h
    by_cases hreg : reg.getRegNumber t1 = -1 ∨ reg.getRegNumber t2 = -1
    · rw [if_pos hreg] at h
      cases h
      exact Or.inl (by decide)
    · rw [if_neg hreg] at h
      rcases withImmediate_ok _ _ _ h with rfl | ⟨imm, _, hb⟩
      · exact Or.inl (by decide)
      · split_ifs at hb <;> cases hb
        all_goals first
          | exact Or.inl (by decide)
          | (right
             refine ⟨by simp [String.length_append, bitset_length]; rfl, ?_⟩
             repeat first
               | apply binary_append
               | apply binary_bitset
               | (intro c hc; revert c; decide))
  · cases h
    exact Or.inl (by decide)

theorem load_shape (tokens : List String) (reg : Register) (s : String)
    (h : LoadInstruction.assemble tokens reg = Except.ok s) :
    s ∈ Spec.sentinels ∨ (s.length = 32 ∧ Spec.binary s) := by
  unfold LoadInstruction.assemble at h
  split at h
  · rename_i t0 t1 t2 t3
    dsimp only at h
    by_cases hreg : reg.getRegNumber t1 = -1 ∨ reg.getRegNumber t2 = -1
    · rw [if_pos hreg] at h
      cases h
      exact Or.inl (by decide)
    · rw [if_neg hreg] at h
      rcases withImmediate_ok _ _ _ h with rfl | ⟨imm, _, hb⟩
      · exact Or.inl (by decide)
      · split_ifs at hb <;> cases hb
        all_goals first
          | exact Or.inl (by decide)
          | (right
             refine ⟨by simp [String.length_append, bitset_length]; rfl, ?_⟩
             repeat first
               | apply binary_append
               | apply binary_bitset
               | (intro c hc; revert c; decide))
  · cases h
    exact Or.inl (by decide)

theorem store_shape (tokens : List String) (reg : Register) (s : String)
    (h : StoreInstruction.assemble tokens reg = Except.ok s) :
    s ∈ Spec.sentinels ∨ (s.length = 32 ∧ Spec.binary s) := by
  unfold StoreInstruction.assemble at h
  split at h
  · rename_i t0 t1 t2 t3
    dsimp only at h
    by_cases hreg : reg.getRegNumber t1 = -1 ∨ reg.getRegNumber t2 = -1
    · rw [if_pos hreg] at h
      cases h
      exact Or.inl (by decide)
    · rw [if_neg hreg] at h
      rcases withImmediate_ok _ _ _ h with rfl | ⟨imm, _, hb⟩
      · exact Or.inl (by decide)
      · split_ifs at hb <;> cases hb
        all_goals first
          | exact Or.inl (by decide)
          | (right
             refine ⟨by simp [String.length_append, bitset_length, substr_length]; rfl, ?_⟩
             repeat first
               | apply binary_append
               | apply binary_substr
               | apply binary_bitset
               | (intro c hc; revert c; decide))
  · cases h
    exact Or.inl (by decide)

theorem btype_shape (tokens : List String) (reg : Register) (s : String)
    (h : BTypeInstruction.assemble tokens reg = Except.ok s) :
    s ∈ Spec.sentinels ∨ (s.length = 32 ∧ Spec.binary s) := by
  unfold BTypeInstruction.assemble at h
  split at h
  · rename_i t0 t1 t2 t3
    dsimp only at h
    by_cases hreg : reg.getRegNumber t1 = -1 ∨ reg.getRegNumber t2 = -1
    · rw [if_pos hreg] at h
      cases h
      exact Or.inl (by decide)
    · rw [if_neg hreg] at h
      rcases withImmediate_ok _ _ _ h with rfl | ⟨imm, _, hb⟩
      · exact Or.inl (by decide)
      · split_ifs at hb <;> cases hb
        all_goals first
          | exact Or.inl (by decide)
          | (right
             refine ⟨by simp [String.length_append, bitset_length, substr_length,
               string1_length]; rfl, ?_⟩
             repeat first
               | apply binary_append
               | apply binary_substr
               | exact binary_string1 _ _ _ (by decide)
               | apply binary_bitset
               | (intro c hc; revert c; decide))
  · cases h
    exact Or.inl (by decide)

theorem jtype_shape (tokens : List String) (reg : Register) (s : String)
    (h : JTypeInstruction.assemble tokens reg = Except.ok s) :
    s ∈ Spec.sentinels ∨ (s.length = 32 ∧ Spec.binary s) := by
  unfold JTypeInstruction.assemble at h
  split at h
  · rename_i t0 t1 t2
    dsimp only at h
    by_cases hreg : reg.getRegNumber t1 = -1
    · rw [if_pos hreg] at h
      cases h
      exact Or.inl (by decide)
    · rw [if_neg hreg] at h
      rcases withImmediate_ok _ _ _ h with rfl | ⟨imm, _, hb⟩
      · exact Or.inl (by decide)
      · split_ifs at hb <;> cases hb
        all_goals first
          | exact Or.inl (by decide)
          | (right
             refine ⟨by simp [String.length_append, bitset_length, substr_length,
               string1_length]; rfl, ?_⟩
             repeat first
               | apply binary_append
               | apply binary_substr
               | exact binary_string1 _ _ _ (by decide)
               | apply binary_bitset
               | (intro c hc; revert c; decide))
  · cases h
    exact Or.inl (by decide)

/-! ## Lemmas relating the string operations of the source to slices -/

theorem substr_eq_slice (s : String) (pos len : Nat) (h : 0 < len) :
    substr s pos len = Spec.slice s pos (pos + len - 1) := by
  unfold substr Spec.slice
  rw [List.drop_take]
  congr 2
  omega

theorem string1_eq_slice (s : String) (i : Nat) (h : i < s.length) :
    string1 s i = Spec.slice s i i := by
  have hi : i < s.data.length := h
  unfold string1 Spec.slice
  rw [List.drop_take, List.getD_eq_getElem _ _ hi, List.drop_eq_getElem_cons hi]
  have e : i + 1 - i = 1 := by omega
  rw [e]
  rfl

theorem unsignedBin_length (w m : Nat) : (Spec.unsignedBin w m).length = w := by
  show (Spec.unsignedBin w m).data.length = w
  rw [unsignedBin_data, List.length_map, List.length_range]

theorem twos_length (w : Nat) (n : Int) : (Spec.twos w n).length = w :=
  unsignedBin_length w _

theorem withImmediate_value (n : Int) (body : Int → Except StdException String) :
    withImmediate (Except.ok n) body = body n := rfl

/-! ## Register-register encoder -/

/-- C1: for a mnemonic among ADD, SUB, AND, OR and register indices at most 31,
`RTypeInstruction::assemble` returns funct7 ++ bin5(rs2) ++ bin5(rs1) ++ funct3 ++
bin5(rd) ++ "0110011", and each 5-bit register field read as an unsigned number
gives back the index. -/
theorem rtype_layout (m : String) (rd rs1 rs2 : Nat)
    (hm : m ∈ ["ADD", "SUB", "AND", "OR"])
    (hrd : rd ≤ 31) (hrs1 : rs1 ≤ 31) (hrs2 : rs2 ≤ 31) :
    RTypeInstruction.assemble
        [m, Spec.regName rd, Spec.regName rs1, Spec.regName rs2] Register.new
      = Except.ok ((Spec.rtypeFunct m).1 ++ Spec.bin5 rs2 ++ Spec.bin5 rs1
          ++ (Spec.rtypeFunct m).2 ++ Spec.bin5 rd ++ "0110011")
    ∧ Spec.readUnsigned (Spec.bin5 rd) = rd
    ∧ Spec.readUnsigned (Spec.bin5 rs1) = rs1
    ∧ Spec.readUnsigned (Spec.bin5 rs2) = rs2 := by
  refine ⟨?_, readUnsigned_bin5 rd hrd, readUnsigned_bin5 rs1 hrs1,
    readUnsigned_bin5 rs2 hrs2⟩
  have hreg : ¬ ((rd : Int) = -1 ∨ (rs1 : Int) = -1 ∨ (rs2 : Int) = -1) := by omega
  simp only [RTypeInstruction.assemble, getRegNumber_regName _ hrd,
    getRegNumber_regName _ hrs1, getRegNumber_regName _ hrs2, if_neg hreg,
    bitset_eq_bin5 _ hrd, bitset_eq_bin5 _ hrs1, bitset_eq_bin5 _ hrs2]
  simp only [List.mem_cons, List.mem_singleton, List.not_mem_nil, or_false] at hm
  rcases hm with h | h | h | h <;> subst h <;> rfl

/-- C1, scenario: `ADD x1, x2, x3` is encoded as 00000000001100010000000010110011. -/
theorem rtype_layout_witness :
    RTypeInstruction.assemble ["ADD", "x1", "x2", "x3"] Register.new
      = Except.ok "00000000001100010000000010110011" :=
  (rtype_layout "ADD" 1 2 3 (by decide) (by decide) (by decide) (by decide)).1

/-! ## Register table -/

/-- C3: `Register::getRegNumber` returns N on the name "x" followed by the decimal
numeral of N, for N from 0 to 31, and -1 on every other string (among them "x32",
"x01", "X1", "x" and the empty string); every result other than -1 lies between
0 and 31, distinct valid names have distinct indices, and every index from 0 to
31 is the index of a name. -/
theorem getRegNumber_spec :
    (∀ N : Nat, N ≤ 31 → Register.new.getRegNumber ("x" ++ Nat.repr N) = (N : Int))
    ∧ (∀ name : String, (¬ ∃ N : Nat, N ≤ 31 ∧ name = "x" ++ Nat.repr N) →
        Register.new.getRegNumber name = -1)
    ∧ Register.new.getRegNumber "x32" = -1
    ∧ Register.new.getRegNumber "x01" = -1
    ∧ Register.new.getRegNumber "X1" = -1
    ∧ Register.new.getRegNumber "x" = -1
    ∧ Register.new.getRegNumber "" = -1
    ∧ (∀ name : String, Register.new.getRegNumber name ≠ -1 →
        0 ≤ Register.new.getRegNumber name ∧ Register.new.getRegNumber name ≤ 31)
    ∧ (∀ a b : String, Register.new.getRegNumber a ≠ -1 →
        Register.new.getRegNumber a = Register.new.getRegNumber b → a = b)
    ∧ (∀ i : Int, 0 ≤ i → i ≤ 31 → ∃ name : String, Register.new.getRegNumber name = i) := by
  refine ⟨fun N hN => getRegNumber_regName N hN, ?_, by decide, by decide, by decide,
    by decide, by decide, ?_, ?_, ?_⟩
  · intro name hname
    rcases getRegNumber_cases name with h | ⟨n, hn, he, _⟩
    · exact h
    · exact absurd ⟨n, hn, he⟩ hname
  · intro name hne
    rcases getRegNumber_cases name with h | ⟨n, hn, _, hv⟩
    · exact absurd h hne
    · rw [hv]; omega
  · intro a b ha hab
    rcases getRegNumber_cases a with h | ⟨n, hn, hea, hva⟩
    · exact absurd h ha
    · rcases getRegNumber_cases b with h | ⟨k, hk, heb, hvb⟩
      · rw [hva, h] at hab; omega
      · rw [hva, hvb] at hab
        have : n = k := by omega
        rw [hea, heb, this]
  · intro i h0 h31
    refine ⟨Spec.regName i.toNat, ?_⟩
    rw [getRegNumber_regName _ (by omega)]
    omega

/-- C3, instance: the name "x17" resolves to 17. -/
theorem getRegNumber_spec_witness : Register.new.getRegNumber "x17" = 17 :=
  getRegNumber_spec.1 17 (by decide)

/-! ## Field widths -/

/-- C2: whenever one of the six encoders returns a string that is not a sentinel
message, the string has exactly 32 characters and each of them is '0' or '1'. -/
theorem field_width_invariant (tokens : List String) (reg : Register) (s : String)
    (h : RTypeInstruction.assemble tokens reg = Except.ok s
      ∨ ITypeInstruction.assemble tokens reg = Except.ok s
      ∨ LoadInstruction.assemble tokens reg = Except.ok s
      ∨ StoreInstruction.assemble tokens reg = Except.ok s
      ∨ BTypeInstruction.assemble tokens reg = Except.ok s
      ∨ JTypeInstruction.assemble tokens reg = Except.ok s)
    (hs : s ∉ Spec.sentinels) :
    s.length = 32 ∧ ∀ c ∈ s.data, c = '0' ∨ c = '1' := by
  have key : s ∈ Spec.sentinels ∨ (s.length = 32 ∧ Spec.binary s) := by
    rcases h with h | h | h | h | h | h
    · exact rtype_shape tokens reg s h
    · exact itype_shape tokens reg s h
    · exact load_shape tokens reg s h
    · exact store_shape tokens reg s h
    · exact btype_shape tokens reg s h
    · exact jtype_shape tokens reg s h
  rcases key with h1 | h2
  · exact absurd h1 hs
  · exact h2

/-- C2, instance: the word of `SW x5, x31, -2048` has 32 binary digits. -/
theorem field_width_invariant_witness :
    "10000000010111111010000000100011".length = 32
      ∧ ∀ c ∈ "10000000010111111010000000100011".data, c = '0' ∨ c = '1' :=
  field_width_invariant ["SW", "x5", "x31", "-2048"] Register.new
    "10000000010111111010000000100011"
    (Or.inr (Or.inr (Or.inr (Or.inl (by decide))))) (by decide)

/-! ## Jump encoder -/

/-- C4: for rd at most 31 and an immediate token parsing to n whose half h = n / 2
(truncated toward zero) lies between -1048576 and 1048575, `JTypeInstruction::assemble`
on "JAL", the name of rd and the token returns b[0] ++ b[10..19] ++ b[9] ++ b[1..8] ++
bin5(rd) ++ "1101111", where b is the 20-character two's-complement string of h;
and two tokens parsing to 2k+1 and 2k (k at least 0), or to -(2k+1) and -2k, are
encoded alike. -/
theorem jtype_layout (rd : Nat) (tok : String) (n : Int) (hrd : rd ≤ 31)
    (hn : stoi tok = Except.ok n)
    (hlo : -1048576 ≤ Int.tdiv n 2) (hhi : Int.tdiv n 2 ≤ 1048575) :
    JTypeInstruction.assemble ["JAL", Spec.regName rd, tok] Register.new
      = Except.ok (Spec.slice (Spec.twos 20 (Int.tdiv n 2)) 0 0
          ++ Spec.slice (Spec.twos 20 (Int.tdiv n 2)) 10 19
          ++ Spec.slice (Spec.twos 20 (Int.tdiv n 2)) 9 9
          ++ Spec.slice (Spec.twos 20 (Int.tdiv n 2)) 1 8
          ++ Spec.bin5 rd ++ "1101111")
    ∧ (∀ (tokA tokB : String) (k : Int), 0 ≤ k →
        stoi tokA = Except.ok (2 * k + 1) → stoi tokB = Except.ok (2 * k) →
        JTypeInstruction.assemble ["JAL", Spec.regName rd, tokA] Register.new
          = JTypeInstruction.assemble ["JAL", Spec.regName rd, tokB] Register.new)
    ∧ (∀ (tokA tokB : String) (k : Int), 0 ≤ k →
        stoi tokA = Except.ok (-(2 * k + 1)) → stoi tokB = Except.ok (-(2 * k)) →
        JTypeInstruction.assemble ["JAL", Spec.regName rd, tokA] Register.new
          = JTypeInstruction.assemble ["JAL", Spec.regName rd, tokB] Register.new) := by
  have hreg : ¬ ((rd : Int) = -1) := by omega
  refine ⟨?_, ?_, ?_⟩
  · have hrange : ¬ (Int.tdiv n 2 < -1048576 ∨ Int.tdiv n 2 > 1048575) := by omega
    simp only [JTypeInstruction.assemble, getRegNumber_regName _ hrd, if_neg hreg, hn,
      withImmediate_value, if_neg hrange, bitset_eq_bin5 _ hrd,
      bitset_eq_twos 20 _ (by decide)]
    rw [string1_eq_slice _ 0 (by rw [twos_length]; decide),
      string1_eq_slice _ 9 (by rw [twos_length]; decide),
      substr_eq_slice _ 10 10 (by decide), substr_eq_slice _ 1 8 (by decide)]
  · intro tokA tokB k hk hA hB
    have e : Int.tdiv (2 * k + 1) 2 = Int.tdiv (2 * k) 2 := by
      rw [Int.tdiv_eq_ediv (by omega) (by decide), Int.tdiv_eq_ediv (by omega) (by decide)]
      omega
    simp only [JTypeInstruction.assemble, hA, hB, withImmediate_value, e]
  · intro tokA tokB k hk hA hB
    have e : Int.tdiv (-(2 * k + 1)) 2 = Int.tdiv (-(2 * k)) 2 := by
      rw [Int.neg_tdiv, Int.neg_tdiv, Int.tdiv_eq_ediv (by omega) (by decide), Int.tdiv_eq_ediv (by omega) (by decide)]
      omega
    simp only [JTypeInstruction.assemble, hA, hB, withImmediate_value, e]

/-- C4, scenario: `JAL x1, 8` has half 4 and is encoded as
00000000100000000000000011101111. -/
theorem jtype_layout_witness :
    JTypeInstruction.assemble ["JAL", "x1", "8"] Register.new
      = Except.ok "00000000100000000000000011101111" :=
  (jtype_layout 1 "8" 8 (by decide) (by decide) (by decide) (by decide)).1

/-- C5, failing input: `JAL x1, 1048576` has half 524288, which does not fit 20
signed bits (the largest such value is 524287), yet the encoder does not reject
it: it returns a word whose 20-bit immediate string reads back as -524288, the
very word of `JAL x1, -1048576`. -/
theorem jtype_range_accepts_21_bit :
    stoi "1048576" = Except.ok 1048576
    ∧ Int.tdiv 1048576 2 = 524288
    ∧ JTypeInstruction.assemble ["JAL", "x1", "1048576"] Register.new
        = Except.ok "10000000000000000000000011101111"
    ∧ Spec.readSigned (bitset 20 (Int.tdiv 1048576 2)) = -524288
    ∧ JTypeInstruction.assemble ["JAL", "x1", "-1048576"] Register.new
        = Except.ok "10000000000000000000000011101111" := by
  decide

/-! ## Branch encoder -/

/-- C6: for a mnemonic among BEQ, BNE, BLT, BGE, register indices at most 31 and an
immediate token parsing to any int n, `BTypeInstruction::assemble` returns b[0] ++
b[2..7] ++ bin5(rs2) ++ bin5(rs1) ++ funct3 ++ b[1] ++ b[8..11] ++ "1100011", where b
is the 12-character two's-complement string of n; and on no token list does the
branch encoder return "Immediate out of range". -/
theorem btype_layout (m : String) (rs1 rs2 : Nat) (tok : String) (n : Int)
    (hm : m ∈ ["BEQ", "BNE", "BLT", "BGE"]) (hrs1 : rs1 ≤ 31) (hrs2 : rs2 ≤ 31)
    (hn : stoi tok = Except.ok n) :
    BTypeInstruction.assemble [m, Spec.regName rs1, Spec.regName rs2, tok] Register.new
      = Except.ok (Spec.slice (Spec.twos 12 n) 0 0 ++ Spec.slice (Spec.twos 12 n) 2 7
          ++ Spec.bin5 rs2 ++ Spec.bin5 rs1 ++ Spec.branchFunct3 m
          ++ Spec.slice (Spec.twos 12 n) 1 1 ++ Spec.slice (Spec.twos 12 n) 8 11
          ++ "1100011")
    ∧ ∀ (tokens : List String) (reg : Register),
        BTypeInstruction.assemble tokens reg ≠ Except.ok "Immediate out of range" := by
  constructor
  · have hreg : ¬ ((rs1 : Int) = -1 ∨ (rs2 : Int) = -1) := by omega
    simp only [BTypeInstruction.assemble, getRegNumber_regName _ hrs1,
      getRegNumber_regName _ hrs2, if_neg hreg, hn, withImmediate_value,
      bitset_eq_bin5 _ hrs1, bitset_eq_bin5 _ hrs2, bitset_eq_twos 12 _ (by decide)]
    rw [string1_eq_slice _ 0 (by rw [twos_length]; decide),
      string1_eq_slice _ 1 (by rw [twos_length]; decide),
      substr_eq_slice _ 2 6 (by decide), substr_eq_slice _ 8 4 (by decide)]
    simp only [List.mem_cons, List.mem_singleton, List.not_mem_nil, or_false] at hm
    rcases hm with h | h | h | h <;> subst h <;> rfl
  · intro tokens reg h
    rcases btype_shape tokens reg _ h with h1 | ⟨h2, _⟩
    · unfold BTypeInstruction.assemble at h
      split at h
      · rename_i t0 t1 t2 t3
        dsimp only at h
        by_cases hreg : reg.getRegNumber t1 = -1 ∨ reg.getRegNumber t2 = -1
        · rw [if_pos hreg] at h
          exact absurd (Except.ok.inj h) (by decide)
        · rw [if_neg hreg] at h
          rcases withImmediate_ok _ _ _ h with h3 | ⟨imm, _, hb⟩
          · exact absurd h3 (by decide)
          · split_ifs at hb
            all_goals first
              | exact absurd (Except.ok.inj hb) (by decide)
              | (have hl := congrArg String.length (Except.ok.inj hb)
                 simp [String.length_append, bitset_length, substr_length,
                   string1_length] at hl
                 exact absurd hl (by decide))
      · exact absurd (Except.ok.inj h) (by decide)
    · exact absurd h2 (by decide)

/-- C6, instance: `BEQ x5, x0, -2` is encoded as 11111110000000101000111101100011. -/
theorem btype_layout_witness :
    BTypeInstruction.assemble ["BEQ", "x5", "x0", "-2"] Register.new
      = Except.ok "11111110000000101000111101100011" :=
  (btype_layout "BEQ" 5 0 "-2" (-2) (by decide) (by decide) (by decide) (by decide)).1.trans
    (by decide)

/-! ## Store and load encoders -/

/-- C7: for register indices at most 31 and an immediate token parsing to n with
-2048 ≤ n ≤ 2047, `StoreInstruction::assemble` returns b[0..6] ++ bin5(rs2) ++
bin5(rs1) ++ "010" ++ b[7..11] ++ "0100011", where b is the 12-bit two's-complement
string of n, whatever the mnemonic token is: in particular SB, SH and SW with the
same operands give the same word. -/
theorem store_layout (m : String) (rs2 rs1 : Nat) (tok : String) (n : Int)
    (hrs2 : rs2 ≤ 31) (hrs1 : rs1 ≤ 31) (hn : stoi tok = Except.ok n)
    (hlo : -2048 ≤ n) (hhi : n ≤ 2047) :
    StoreInstruction.assemble [m, Spec.regName rs2, Spec.regName rs1, tok] Register.new
      = Except.ok (Spec.slice (Spec.twos 12 n) 0 6 ++ Spec.bin5 rs2 ++ Spec.bin5 rs1
          ++ "010" ++ Spec.slice (Spec.twos 12 n) 7 11 ++ "0100011")
    ∧ StoreInstruction.assemble ["SB", Spec.regName rs2, Spec.regName rs1, tok] Register.new
      = StoreInstruction.assemble ["SW", Spec.regName rs2, Spec.regName rs1, tok] Register.new
    ∧ StoreInstruction.assemble ["SH", Spec.regName rs2, Spec.regName rs1, tok] Register.new
      = StoreInstruction.assemble ["SW", Spec.regName rs2, Spec.regName rs1, tok] Register.new
    ∧ ∀ m' : String,
        StoreInstruction.assemble [m', Spec.regName rs2, Spec.regName rs1, tok] Register.new
          = StoreInstruction.assemble [m, Spec.regName rs2, Spec.regName rs1, tok]
              Register.new := by
  refine ⟨?_, rfl, rfl, fun _ => rfl⟩
  have hreg : ¬ ((rs2 : Int) = -1 ∨ (rs1 : Int) = -1) := by omega
  have hrange : ¬ (n < -2048 ∨ n > 2047) := by omega
  simp only [StoreInstruction.assemble, getRegNumber_regName _ hrs1,
    getRegNumber_regName _ hrs2, if_neg hreg, hn, withImmediate_value, if_neg hrange,
    bitset_eq_bin5 _ hrs1, bitset_eq_bin5 _ hrs2, bitset_eq_twos 12 _ (by decide)]
  rw [substr_eq_slice _ 0 7 (by decide), substr_eq_slice _ 7 5 (by decide)]

/-- C7, instance: `SB x5, x31, -2048` is encoded as 10000000010111111010000000100011. -/
theorem store_layout_witness :
    StoreInstruction.assemble ["SB", "x5", "x31", "-2048"] Register.new
      = Except.ok "10000000010111111010000000100011" :=
  (store_layout "SB" 5 31 "-2048" (-2048) (by decide) (by decide) (by decide) (by decide)
    (by decide)).1.trans (by decide)

/-- C8: for a mnemonic among LB, LH, LW, LBU, LHU, register indices at most 31 and an
immediate token parsing to n with -2048 ≤ n ≤ 2047, `LoadInstruction::assemble`
returns b ++ bin5(rs1) ++ funct3 ++ bin5(rd) ++ "0000011", where b is the 12-bit
two's-complement string of n. -/
theorem load_layout (m : String) (rd rs1 : Nat) (tok : String) (n : Int)
    (hm : m ∈ ["LB", "LH", "LW", "LBU", "LHU"]) (hrd : rd ≤ 31) (hrs1 : rs1 ≤ 31)
    (hn : stoi tok = Except.ok n) (hlo : -2048 ≤ n) (hhi : n ≤ 2047) :
    LoadInstruction.assemble [m, Spec.regName rd, Spec.regName rs1, tok] Register.new
      = Except.ok (Spec.twos 12 n ++ Spec.bin5 rs1 ++ Spec.loadFunct3 m ++ Spec.bin5 rd
          ++ "0000011") := by
  have hreg : ¬ ((rd : Int) = -1 ∨ (rs1 : Int) = -1) := by omega
  have hrange : ¬ (n < -2048 ∨ n > 2047) := by omega
  simp only [LoadInstruction.assemble, getRegNumber_regName _ hrd,
    getRegNumber_regName _ hrs1, if_neg hreg, hn, withImmediate_value, if_neg hrange,
    bitset_eq_bin5 _ hrd, bitset_eq_bin5 _ hrs1, bitset_eq_twos 12 _ (by decide)]
  simp only [List.mem_cons, List.mem_singleton, List.not_mem_nil, or_false] at hm
  rcases hm with h | h | h | h | h <;> subst h <;> rfl

/-- C8, scenario: `LW x1, x2, 4` is encoded as "000000000100" ++ "00010" ++ "010" ++
"00001" ++ "0000011". -/
theorem load_layout_witness :
    LoadInstruction.assemble ["LW", "x1", "x2", "4"] Register.new
      = Except.ok ("000000000100" ++ "00010" ++ "010" ++ "00001" ++ "0000011") :=
  (load_layout "LW" 1 2 "4" 4 (by decide) (by decide) (by decide) (by decide) (by decide)
    (by decide)).trans (by decide)

/-- C9: on four tokens whose two register tokens resolve and whose immediate token
parses to n, the load encoder and the store encoder each return "Immediate out of
range" exactly when n < -2048 or n > 2047; so 2047 and -2048 are not rejected for
range while 2048 and -2049 are. -/
theorem load_store_range (m t1 t2 tok : String) (n : Int)
    (h1 : Register.new.getRegNumber t1 ≠ -1) (h2 : Register.new.getRegNumber t2 ≠ -1)
    (hn : stoi tok = Except.ok n) :
    (LoadInstruction.assemble [m, t1, t2, tok] Register.new
        = Except.ok "Immediate out of range" ↔ (n < -2048 ∨ n > 2047))
    ∧ (StoreInstruction.assemble [m, t1, t2, tok] Register.new
        = Except.ok "Immediate out of range" ↔ (n < -2048 ∨ n > 2047))
    ∧ LoadInstruction.assemble ["LW", "x1", "x2", "2047"] Register.new
        ≠ Except.ok "Immediate out of range"
    ∧ LoadInstruction.assemble ["LW", "x1", "x2", "-2048"] Register.new
        ≠ Except.ok "Immediate out of range"
    ∧ LoadInstruction.assemble ["LW", "x1", "x2", "2048"] Register.new
        = Except.ok "Immediate out of range"
    ∧ LoadInstruction.assemble ["LW", "x1", "x2", "-2049"] Register.new
        = Except.ok "Immediate out of range"
    ∧ StoreInstruction.assemble ["SW", "x1", "x2", "2047"] Register.new
        ≠ Except.ok "Immediate out of range"
    ∧ StoreInstruction.assemble ["SW", "x1", "x2", "-2048"] Register.new
        ≠ Except.ok "Immediate out of range"
    ∧ StoreInstruction.assemble ["SW", "x1", "x2", "2048"] Register.new
        = Except.ok "Immediate out of range"
    ∧ StoreInstruction.assemble ["SW", "x1", "x2", "-2049"] Register.new
        = Except.ok "Immediate out of range" := by
  have hreg : ¬ (Register.new.getRegNumber t1 = -1 ∨ Register.new.getRegNumber t2 = -1) := by
    intro h
    rcases h with h | h
    · exact h1 h
    · exact h2 h
  refine ⟨?_, ?_, by decide, by decide, by decide, by decide, by decide, by decide,
    by decide, by decide⟩
  · constructor
    · intro h
      by_contra hrange
      simp only [LoadInstruction.assemble, if_neg hreg, hn, withImmediate_value,
        if_neg hrange] at h
      split_ifs at h
      all_goals first
        | exact absurd (Except.ok.inj h) (by decide)
        | (have hl := congrArg String.length (Except.ok.inj h)
           simp [String.length_append, bitset_length] at hl
           exact absurd hl (by decide))
    · intro hrange
      simp only [LoadInstruction.assemble, if_neg hreg, hn, withImmediate_value,
        if_pos hrange]
  · constructor
    · intro h
      by_contra hrange
      simp only [StoreInstruction.assemble, if_neg hreg, hn, withImmediate_value,
        if_neg hrange] at h
      have hl := congrArg String.length (Except.ok.inj h)
      simp [String.length_append, bitset_length, substr_length] at hl
      exact absurd hl (by decide)
    · intro hrange
      simp only [StoreInstruction.assemble, if_neg hreg, hn, withImmediate_value,
        if_pos hrange]

/-- C9, instance: `LH x3, x4, 2048` is rejected with "Immediate out of range". -/
theorem load_store_range_witness :
    LoadInstruction.assemble ["LH", "x3", "x4", "2048"] Register.new
      = Except.ok "Immediate out of range" :=
  (load_store_range "LH" "x3" "x4" "2048" 2048 (by decide) (by decide) (by decide)).1.mpr
    (by decide)

/-! ## Shift with immediate -/

/-- C10: for register indices at most 31 and an immediate token parsing to n,
`ITypeInstruction::assemble` on SRLI returns "Invalid Shift Amount" if n < 0 or n > 31,
and otherwise "0000000" ++ bin5(n) ++ bin5(rs1) ++ "101" ++ bin5(rd) ++ "0010011". -/
theorem srli_shift_amount (rd rs1 : Nat) (tok : String) (n : Int)
    (hrd : rd ≤ 31) (hrs1 : rs1 ≤ 31) (hn : stoi tok = Except.ok n) :
    ((n < 0 ∨ n > 31) →
      ITypeInstruction.assemble ["SRLI", Spec.regName rd, Spec.regName rs1, tok] Register.new
        = Except.ok "Invalid Shift Amount")
    ∧ (¬ (n < 0 ∨ n > 31) →
      ITypeInstruction.assemble ["SRLI", Spec.regName rd, Spec.regName rs1, tok] Register.new
        = Except.ok ("0000000" ++ Spec.bin5 n.toNat ++ Spec.bin5 rs1 ++ "101"
            ++ Spec.bin5 rd ++ "0010011")) := by
  have hreg : ¬ ((rd : Int) = -1 ∨ (rs1 : Int) = -1) := by omega
  have hA : ¬ ("SRLI" = "ADDI") := by decide
  have hB : ¬ ("SRLI" = "ANDI") := by decide
  constructor
  · intro hrange
    simp only [ITypeInstruction.assemble, getRegNumber_regName _ hrd,
      getRegNumber_regName _ hrs1, if_neg hreg, hn, withImmediate_value, if_neg hA,
      if_neg hB, if_pos, if_pos hrange]
  · intro hrange
    have hcast : ((n.toNat : Nat) : Int) = n := Int.toNat_of_nonneg (by omega)
    have hbin : bitset 5 n = Spec.bin5 n.toNat := by
      rw [← bitset_eq_bin5 _ (by omega), hcast]
    simp only [ITypeInstruction.assemble, getRegNumber_regName _ hrd,
      getRegNumber_regName _ hrs1, if_neg hreg, hn, withImmediate_value, if_neg hA,
      if_neg hB, if_pos, if_neg hrange, bitset_eq_bin5 _ hrd, bitset_eq_bin5 _ hrs1, hbin]

/-- C10, scenario: `SRLI x2, x1, 32` gives "Invalid Shift Amount". -/
theorem srli_shift_amount_witness :
    ITypeInstruction.assemble ["SRLI", "x2", "x1", "32"] Register.new
      = Except.ok "Invalid Shift Amount" :=
  (srli_shift_amount 2 1 "32" 32 (by decide) (by decide) (by decide)).1 (by decide)

/-! ## Lemmas on reading binary numerals back -/

theorem readUnsigned_append (s t : String) :
    Spec.readUnsigned (s ++ t)
      = t.data.foldl (fun acc c => 2 * acc + (if c = '1' then 1 else 0)) (Spec.readUnsigned s) := by
  unfold Spec.readUnsigned
  rw [String.data_append, List.foldl_append]

theorem readUnsigned_unsignedBin (w m : Nat) :
    Spec.readUnsigned (Spec.unsignedBin w m) = m % 2 ^ w := by
  induction w generalizing m with
  | zero => simp [Spec.unsignedBin, Spec.readUnsigned, Nat.mod_one]
  | succ w ih =>
    rw [Spec.unsignedBin, readUnsigned_append, ih, pow_succ, Nat.mul_comm (2 ^ w) 2,
      Nat.mod_mul]
    have h2 : m % 2 = 0 ∨ m % 2 = 1 := by omega
    rcases h2 with h | h
    · rw [if_neg (by omega)]
      simp [h]
    · rw [if_pos h]
      simp [h]
      omega

theorem unsignedBin_head (w m : Nat) :
    (Spec.unsignedBin (w + 1) m).data.head?
      = some (if m / 2 ^ w % 2 = 1 then '1' else '0') := by
  rw [unsignedBin_data, List.range_succ_eq_map]
  rfl

theorem readSigned_twos12 (n : Int) (hlo : -2048 ≤ n) (hhi : n ≤ 2047) :
    Spec.readSigned (Spec.twos 12 n) = n := by
  have hM : ((n % 2 ^ 12).toNat : Int) = n % 2 ^ 12 :=
    Int.toNat_of_nonneg (Int.emod_nonneg _ (by decide))
  have hlt : (n % 2 ^ 12).toNat < 2 ^ 12 := by
    have := Int.emod_lt_of_pos n (show (0 : Int) < 2 ^ 12 by decide)
    omega
  unfold Spec.readSigned
  rw [twos_length]
  unfold Spec.twos
  rw [unsignedBin_head, readUnsigned_unsignedBin, Nat.mod_eq_of_lt hlt]
  by_cases hb : (n % 2 ^ 12).toNat / 2 ^ 11 % 2 = 1
  · rw [if_pos hb, if_pos rfl, hM]
    norm_num at hb hM ⊢
    omega
  · rw [if_neg hb, if_neg (by decide), hM]
    norm_num at hb hM ⊢
    omega

/-! ## Immediate arithmetic and logic -/

/-- C11: for ADDI and ANDI, register indices at most 31 and an immediate token parsing
to n with -2048 ≤ n ≤ 2047, `ITypeInstruction::assemble` returns b ++ bin5(rs1) ++
funct3 ++ bin5(rd) ++ "0010011", where b is the 12-bit two's-complement string of n
(read back as a signed number it gives n) and funct3 is 000 for ADDI and 111 for
ANDI. -/
theorem itype_layout (m : String) (rd rs1 : Nat) (tok : String) (n : Int)
    (hm : m ∈ ["ADDI", "ANDI"]) (hrd : rd ≤ 31) (hrs1 : rs1 ≤ 31)
    (hn : stoi tok = Except.ok n) (hlo : -2048 ≤ n) (hhi : n ≤ 2047) :
    ITypeInstruction.assemble [m, Spec.regName rd, Spec.regName rs1, tok] Register.new
      = Except.ok (Spec.twos 12 n ++ Spec.bin5 rs1 ++ Spec.immFunct3 m ++ Spec.bin5 rd
          ++ "0010011")
    ∧ Spec.readSigned (Spec.twos 12 n) = n := by
  refine ⟨?_, readSigned_twos12 n hlo hhi⟩
  have hreg : ¬ ((rd : Int) = -1 ∨ (rs1 : Int) = -1) := by omega
  simp only [ITypeInstruction.assemble, getRegNumber_regName _ hrd,
    getRegNumber_regName _ hrs1, if_neg hreg, hn, withImmediate_value,
    bitset_eq_bin5 _ hrd, bitset_eq_bin5 _ hrs1, bitset_eq_twos 12 _ (by decide)]
  simp only [List.mem_cons, List.mem_singleton, List.not_mem_nil, or_false] at hm
  rcases hm with h | h <;> subst h <;> rfl

/-- C11, scenario: `ADDI x5, x0, 10` is encoded as 00000000101000000000001010010011. -/
theorem itype_layout_witness :
    ITypeInstruction.assemble ["ADDI", "x5", "x0", "10"] Register.new
      = Except.ok "00000000101000000000001010010011" :=
  (itype_layout "ADDI" 5 0 "10" 10 (by decide) (by decide) (by decide) (by decide)
    (by decide) (by decide)).1.trans (by decide)

/-! ## Dispatcher -/

theorem instructionSet_eq :
    Assembler.new.instructionSet =
      [("ADDI", Instruction.IType), ("ANDI", Instruction.IType), ("SRLI", Instruction.IType),
       ("SUB", Instruction.RType), ("ADD", Instruction.RType), ("AND", Instruction.RType),
       ("OR", Instruction.RType), ("LB", Instruction.Load), ("LH", Instruction.Load),
       ("LW", Instruction.Load), ("LBU", Instruction.Load), ("LHU", Instruction.Load),
       ("SB", Instruction.Store), ("SH", Instruction.Store), ("SW", Instruction.Store),
       ("BGE", Instruction.BType), ("JAL", Instruction.JType)] := by
  decide

theorem mapFind_none {β : Type} (m : List (String × β)) (k : String)
    (h : ∀ e ∈ m, e.1 ≠ k) : mapFind m k = none := by
  induction m with
  | nil => rfl
  | cons e m ih =>
    obtain ⟨k', v⟩ := e
    unfold mapFind
    rw [if_neg (h (k', v) (List.mem_cons_self _ _))]
    exact ih fun e he => h e (List.mem_cons_of_mem _ he)

theorem instructionSet_keys (e : String × Instruction)
    (he : e ∈ Assembler.new.instructionSet) : e.1 ∈ Spec.wired := by
  have key : ∀ e ∈ Assembler.new.instructionSet, e.1 ∈ Spec.wired := by decide
  exact key e he

theorem encodeInstruction_cons (line t : String) (rest : List String)
    (ht : Assembler.tokenize line = t :: rest) :
    Assembler.new.encodeInstruction line =
      match mapFind Assembler.new.instructionSet t with
      | some instr => instr.assemble (t :: rest) Register.new
      | none => Except.ok "Unknown Instruction" := by
  simp only [Assembler.encodeInstruction, ht]
  rfl

/-- C12, failing input: the line `ADDI x1, x0, 99999999999` is tokenized into four
tokens, `stoi` throws `out_of_range` on the last one, the handler of the encoder
catches `invalid_argument` only, and the exception leaves
`Assembler::encodeInstruction`; on `ADDI x1, x0, abc` the same handler returns the
sentinel "Invalid Immediate". -/
theorem encodeInstruction_out_of_range_escapes :
    Assembler.tokenize "ADDI x1, x0, 99999999999" = ["ADDI", "x1", "x0", "99999999999"]
    ∧ stoi "99999999999" = Except.error StdException.out_of_range
    ∧ Assembler.new.encodeInstruction "ADDI x1, x0, 99999999999"
        = Except.error StdException.out_of_range
    ∧ Assembler.new.encodeInstruction "ADDI x1, x0, abc" = Except.ok "Invalid Immediate" := by
  decide

/-- C13: on a line whose first token is none of the seventeen mnemonics of the
dispatch table, `Assembler::encodeInstruction` returns "Unknown Instruction",
whatever the other tokens are; lines that start with BEQ, BNE or BLT, and a line
that spells a mnemonic in lower case, are among them. -/
theorem unknown_mnemonic (line t : String) (rest : List String)
    (ht : Assembler.tokenize line = t :: rest) (hw : t ∉ Spec.wired) :
    Assembler.new.encodeInstruction line = Except.ok "Unknown Instruction"
    ∧ Assembler.new.encodeInstruction "BEQ x1, x2, 4" = Except.ok "Unknown Instruction"
    ∧ Assembler.new.encodeInstruction "BNE x1, x2, 4" = Except.ok "Unknown Instruction"
    ∧ Assembler.new.encodeInstruction "BLT x1, x2, 4" = Except.ok "Unknown Instruction"
    ∧ Assembler.new.encodeInstruction "add x1, x2, x3" = Except.ok "Unknown Instruction" := by
  refine ⟨?_, by decide, by decide, by decide, by decide⟩
  rw [encodeInstruction_cons line t rest ht, mapFind_none]
  intro e he hk
  exact hw (hk ▸ instructionSet_keys e he)

/-- C13, scenario: `FOO x1, x2, x3` gives "Unknown Instruction". -/
theorem unknown_mnemonic_witness :
    Assembler.new.encodeInstruction "FOO x1, x2, x3" = Except.ok "Unknown Instruction" :=
  (unknown_mnemonic "FOO x1, x2, x3" "FOO" ["x1", "x2", "x3"] (by decide) (by decide)).1

/-! ## Order of the checks -/

theorem withImmediate_invalid (body : Int → Except StdException String) :
    withImmediate (Except.error StdException.invalid_argument) body
      = Except.ok "Invalid Immediate" := rfl

/-- Order of the checks, as far as the code keeps it, that is on immediate tokens on
which `stoi` does not throw `out_of_range`: in every encoder a wrong token count
gives "Invalid Format" whatever the tokens are; with the right count a register
token that does not resolve gives "Invalid Register" whatever the immediate token
and the mnemonic are; with resolving registers an immediate token on which `stoi`
finds no number gives "Invalid Immediate" whatever the mnemonic is; and in the load
encoder (as in the store and jump encoders) a parsed immediate outside the range
gives "Immediate out of range" whatever the mnemonic is. -/
theorem error_detection_order :
    (∀ (tokens : List String) (reg : Register), tokens.length ≠ 4 →
        RTypeInstruction.assemble tokens reg = Except.ok "Invalid Format"
        ∧ ITypeInstruction.assemble tokens reg = Except.ok "Invalid Format"
        ∧ LoadInstruction.assemble tokens reg = Except.ok "Invalid Format"
        ∧ StoreInstruction.assemble tokens reg = Except.ok "Invalid Format"
        ∧ BTypeInstruction.assemble tokens reg = Except.ok "Invalid Format")
    ∧ (∀ (tokens : List String) (reg : Register), tokens.length ≠ 3 →
        JTypeInstruction.assemble tokens reg = Except.ok "Invalid Format")
    ∧ (∀ (t0 t1 t2 t3 : String) (reg : Register),
        (reg.getRegNumber t1 = -1 ∨ reg.getRegNumber t2 = -1 ∨ reg.getRegNumber t3 = -1) →
        RTypeInstruction.assemble [t0, t1, t2, t3] reg = Except.ok "Invalid Register")
    ∧ (∀ (t0 t1 t2 t3 : String) (reg : Register),
        (reg.getRegNumber t1 = -1 ∨ reg.getRegNumber t2 = -1) →
        ITypeInstruction.assemble [t0, t1, t2, t3] reg = Except.ok "Invalid Register"
        ∧ LoadInstruction.assemble [t0, t1, t2, t3] reg = Except.ok "Invalid Register"
        ∧ StoreInstruction.assemble [t0, t1, t2, t3] reg = Except.ok "Invalid Register"
        ∧ BTypeInstruction.assemble [t0, t1, t2, t3] reg = Except.ok "Invalid Register")
    ∧ (∀ (t0 t1 t2 : String) (reg : Register), reg.getRegNumber t1 = -1 →
        JTypeInstruction.assemble [t0, t1, t2] reg = Except.ok "Invalid Register")
    ∧ (∀ (t0 t1 t2 t3 : String) (reg : Register),
        reg.getRegNumber t1 ≠ -1 → reg.getRegNumber t2 ≠ -1 →
        stoi t3 = Except.error StdException.invalid_argument →
        ITypeInstruction.assemble [t0, t1, t2, t3] reg = Except.ok "Invalid Immediate"
        ∧ LoadInstruction.assemble [t0, t1, t2, t3] reg = Except.ok "Invalid Immediate"
        ∧ StoreInstruction.assemble [t0, t1, t2, t3] reg = Except.ok "Invalid Immediate"
        ∧ BTypeInstruction.assemble [t0, t1, t2, t3] reg = Except.ok "Invalid Immediate")
    ∧ (∀ (t0 t1 t2 : String) (reg : Register), reg.getRegNumber t1 ≠ -1 →
        stoi t2 = Except.error StdException.invalid_argument →
        JTypeInstruction.assemble [t0, t1, t2] reg = Except.ok "Invalid Immediate")
    ∧ (∀ (t0 t1 t2 t3 : String) (reg : Register) (n : Int),
        reg.getRegNumber t1 ≠ -1 → reg.getRegNumber t2 ≠ -1 →
        stoi t3 = Except.ok n → (n < -2048 ∨ n > 2047) →
        LoadInstruction.assemble [t0, t1, t2, t3] reg = Except.ok "Immediate out of range"
        ∧ StoreInstruction.assemble [t0, t1, t2, t3] reg
            = Except.ok "Immediate out of range")
    ∧ (∀ (t0 t1 t2 : String) (reg : Register) (n : Int), reg.getRegNumber t1 ≠ -1 →
        stoi t2 = Except.ok n → (Int.tdiv n 2 < -1048576 ∨ Int.tdiv n 2 > 1048575) →
        JTypeInstruction.assemble [t0, t1, t2] reg = Except.ok "Immediate out of range") := by
  refine ⟨?_, ?_, ?_, ?_, ?_, ?_, ?_, ?_, ?_⟩
  · intro tokens reg h
    refine ⟨?_, ?_, ?_, ?_, ?_⟩
    · unfold RTypeInstruction.assemble
      split
      · exact absurd rfl h
      · rfl
    · unfold ITypeInstruction.assemble
      split
      · exact absurd rfl h
      · rfl
    · unfold LoadInstruction.assemble
      split
      · exact absurd rfl h
      · rfl
    · unfold StoreInstruction.assemble
      split
      · exact absurd rfl h
      · rfl
    · unfold BTypeInstruction.assemble
      split
      · exact absurd rfl h
      · rfl
  · intro tokens reg h
    unfold JTypeInstruction.assemble
    split
    · exact absurd rfl h
    · rfl
  · intro t0 t1 t2 t3 reg h
    simp only [RTypeInstruction.assemble, if_pos h]
  · intro t0 t1 t2 t3 reg h
    refine ⟨?_, ?_, ?_, ?_⟩
    · simp only [ITypeInstruction.assemble, if_pos h]
    · simp only [LoadInstruction.assemble, if_pos h]
    · simp only [StoreInstruction.assemble, if_pos h]
    · simp only [BTypeInstruction.assemble, if_pos h]
  · intro t0 t1 t2 reg h
    simp only [JTypeInstruction.assemble, if_pos h]
  · intro t0 t1 t2 t3 reg h1 h2 hn
    have hreg : ¬ (reg.getRegNumber t1 = -1 ∨ reg.getRegNumber t2 = -1) := by
      intro h
      rcases h with h | h
      · exact h1 h
      · exact h2 h
    refine ⟨?_, ?_, ?_, ?_⟩
    · simp only [ITypeInstruction.assemble, if_neg hreg, hn, withImmediate_invalid]
    · simp only [LoadInstruction.assemble, if_neg hreg, hn, withImmediate_invalid]
    · simp only [StoreInstruction.assemble, if_neg hreg, hn, withImmediate_invalid]
    · simp only [BTypeInstruction.assemble, if_neg hreg, hn, withImmediate_invalid]
  · intro t0 t1 t2 reg h1 hn
    simp only [JTypeInstruction.assemble, if_neg h1, hn, withImmediate_invalid]
  · intro t0 t1 t2 t3 reg n h1 h2 hn hrange
    have hreg : ¬ (reg.getRegNumber t1 = -1 ∨ reg.getRegNumber t2 = -1) := by
      intro h
      rcases h with h | h
      · exact h1 h
      · exact h2 h
    constructor
    · simp only [LoadInstruction.assemble, if_neg hreg, hn, withImmediate_value,
        if_pos hrange]
    · simp only [StoreInstruction.assemble, if_neg hreg, hn, withImmediate_value,
        if_pos hrange]
  · intro t0 t1 t2 reg n h1 hn hrange
    simp only [JTypeInstruction.assemble, if_neg h1, hn, withImmediate_value,
      if_pos hrange]

/-- Instance of the order of the checks: the load encoder answers "Immediate out of
range" on `FOO x1, x2, 5000`, before it looks at the mnemonic. -/
theorem error_detection_order_witness :
    LoadInstruction.assemble ["FOO", "x1", "x2", "5000"] Register.new
      = Except.ok "Immediate out of range" :=
  (error_detection_order.2.2.2.2.2.2.2.1 "FOO" "x1" "x2" "5000" Register.new 5000
    (by decide) (by decide) (by decide) (by decide)).1

/-- C14, failing input: on `LW x1, x2, 99999999999` the token count is right, both
register tokens resolve and the immediate token is a decimal numeral outside
-2048..2047, yet the load encoder returns neither "Immediate out of range" nor any
other sentinel: `stoi` throws `out_of_range`, the handler catches `invalid_argument`
only, and no check decides the result. The same happens with the unsupported
mnemonic FOO and in the other four encoders that take an immediate. On 5000 the
range check of the load encoder answers, and on abc its parse check does. -/
theorem error_order_escapes_on_overflow :
    Register.new.getRegNumber "x1" ≠ -1
    ∧ Register.new.getRegNumber "x2" ≠ -1
    ∧ Spec.isSignedDecimal "99999999999" = true
    ∧ LoadInstruction.assemble ["LW", "x1", "x2", "99999999999"] Register.new
        = Except.error StdException.out_of_range
    ∧ LoadInstruction.assemble ["FOO", "x1", "x2", "99999999999"] Register.new
        = Except.error StdException.out_of_range
    ∧ ITypeInstruction.assemble ["ADDI", "x1", "x2", "99999999999"] Register.new
        = Except.error StdException.out_of_range
    ∧ StoreInstruction.assemble ["SW", "x1", "x2", "99999999999"] Register.new
        = Except.error StdException.out_of_range
    ∧ BTypeInstruction.assemble ["BGE", "x1", "x2", "99999999999"] Register.new
        = Except.error StdException.out_of_range
    ∧ JTypeInstruction.assemble ["JAL", "x1", "99999999999"] Register.new
        = Except.error StdException.out_of_range
    ∧ LoadInstruction.assemble ["LW", "x1", "x2", "5000"] Register.new
        = Except.ok "Immediate out of range"
    ∧ LoadInstruction.assemble ["LW", "x1", "x2", "abc"] Register.new
        = Except.ok "Invalid Immediate" := by
  decide

/-! ## Lemmas on `stoi` -/

theorem skipSpace_eq_dropWhile (l : List Char) : skipSpace l = l.dropWhile isspace := by
  induction l with
  | nil => rfl
  | cons c cs ih =>
    unfold skipSpace
    by_cases h : isspace c = true
    · rw [if_pos h, List.dropWhile_cons_of_pos h, ih]
    · rw [if_neg h, List.dropWhile_cons_of_neg h]

theorem takeSign_other (c : Char) (cs : List Char) (h1 : c ≠ '-') (h2 : c ≠ '+') :
    takeSign (c :: cs) = (false, c :: cs) := by
  unfold takeSign
  split
  · rename_i heq
    exact absurd (List.cons.inj heq).1 h1
  · rename_i heq
    exact absurd (List.cons.inj heq).1 h2
  · rfl

theorem takeDigits_eq_nil_cons (c : Char) (cs : List Char) :
    takeDigits (c :: cs) = [] ↔ isdigit c = false := by
  unfold takeDigits
  by_cases h : isdigit c = true
  · rw [if_pos h]
    simp [h]
  · rw [if_neg h]
    simp [h]

theorem stoi_invalid_iff_digits (s : String) :
    stoi s = Except.error StdException.invalid_argument
      ↔ takeDigits (takeSign (skipSpace s.data)).2 = [] := by
  unfold stoi
  constructor
  · intro h
    by_contra hd
    simp only [if_neg hd] at h
    split_ifs at h <;> cases h
  · intro hd
    simp only [if_pos hd]

theorem stoi_invalid_iff (s : String) :
    stoi s = Except.error StdException.invalid_argument ↔ Spec.startsWithNumeral s = false := by
  rw [stoi_invalid_iff_digits, skipSpace_eq_dropWhile]
  unfold Spec.startsWithNumeral
  cases hl : s.data.dropWhile isspace with
  | nil => exact ⟨fun _ => rfl, fun _ => rfl⟩
  | cons c cs =>
    by_cases hm : c = '-'
    · subst hm
      cases cs with
      | nil => exact ⟨fun _ => rfl, fun _ => rfl⟩
      | cons d ds =>
        show takeDigits (d :: ds) = [] ↔ isdigit d = false
        exact takeDigits_eq_nil_cons d ds
    · by_cases hp : c = '+'
      · subst hp
        cases cs with
        | nil => exact ⟨fun _ => rfl, fun _ => rfl⟩
        | cons d ds =>
          show takeDigits (d :: ds) = [] ↔ isdigit d = false
          exact takeDigits_eq_nil_cons d ds
      · rw [takeSign_other c cs hm hp]
        have hsign : ¬ (c = '-' ∨ c = '+') := fun h => h.elim hm hp
        simp only [if_neg hsign]
        exact takeDigits_eq_nil_cons c cs

/-! ## Immediate tokens without a number -/

theorem itype_invalid_immediate_iff (t0 t1 t2 t3 : String) (reg : Register)
    (hreg : ¬ (reg.getRegNumber t1 = -1 ∨ reg.getRegNumber t2 = -1)) :
    ITypeInstruction.assemble [t0, t1, t2, t3] reg = Except.ok "Invalid Immediate"
      ↔ stoi t3 = Except.error StdException.invalid_argument := by
  constructor
  · intro h
    cases hn : stoi t3 with
    | ok n =>
      simp only [ITypeInstruction.assemble, if_neg hreg, hn, withImmediate_value] at h
      split_ifs at h
      all_goals first
        | exact absurd (Except.ok.inj h) (by decide)
        | (have hl := congrArg String.length (Except.ok.inj h)
           simp [String.length_append, bitset_length] at hl
           exact absurd hl (by decide))
    | error e =>
      cases e with
      | invalid_argument => rfl
      | out_of_range =>
        simp only [ITypeInstruction.assemble, if_neg hreg, hn] at h
        cases h
  · intro hn
    simp only [ITypeInstruction.assemble, if_neg hreg, hn, withImmediate_invalid]

theorem load_invalid_immediate_iff (t0 t1 t2 t3 : String) (reg : Register)
    (hreg : ¬ (reg.getRegNumber t1 = -1 ∨ reg.getRegNumber t2 = -1)) :
    LoadInstruction.assemble [t0, t1, t2, t3] reg = Except.ok "Invalid Immediate"
      ↔ stoi t3 = Except.error StdException.invalid_argument := by
  constructor
  · intro h
    cases hn : stoi t3 with
    | ok n =>
      simp only [LoadInstruction.assemble, if_neg hreg, hn, withImmediate_value] at h
      split_ifs at h
      all_goals first
        | exact absurd (Except.ok.inj h) (by decide)
        | (have hl := congrArg String.length (Except.ok.inj h)
           simp [String.length_append, bitset_length] at hl
           exact absurd hl (by decide))
    | error e =>
      cases e with
      | invalid_argument => rfl
      | out_of_range =>
        simp only [LoadInstruction.assemble, if_neg hreg, hn] at h
        cases h
  · intro hn
    simp only [LoadInstruction.assemble, if_neg hreg, hn, withImmediate_invalid]

theorem store_invalid_immediate_iff (t0 t1 t2 t3 : String) (reg : Register)
    (hreg : ¬ (reg.getRegNumber t1 = -1 ∨ reg.getRegNumber t2 = -1)) :
    StoreInstruction.assemble [t0, t1, t2, t3] reg = Except.ok "Invalid Immediate"
      ↔ stoi t3 = Except.error StdException.invalid_argument := by
  constructor
  · intro h
    cases hn : stoi t3 with
    | ok n =>
      simp only [StoreInstruction.assemble, if_neg hreg, hn, withImmediate_value] at h
      split_ifs at h
      all_goals first
        | exact absurd (Except.ok.inj h) (by decide)
        | (have hl := congrArg String.length (Except.ok.inj h)
           simp [String.length_append, bitset_length, substr_length] at hl
           exact absurd hl (by decide))
    | error e =>
      cases e with
      | invalid_argument => rfl
      | out_of_range =>
        simp only [StoreInstruction.assemble, if_neg hreg, hn] at h
        cases h
  · intro hn
    simp only [StoreInstruction.assemble, if_neg hreg, hn, withImmediate_invalid]

theorem btype_invalid_immediate_iff (t0 t1 t2 t3 : String) (reg : Register)
    (hreg : ¬ (reg.getRegNumber t1 = -1 ∨ reg.getRegNumber t2 = -1)) :
    BTypeInstruction.assemble [t0, t1, t2, t3] reg = Except.ok "Invalid Immediate"
      ↔ stoi t3 = Except.error StdException.invalid_argument := by
  constructor
  · intro h
    cases hn : stoi t3 with
    | ok n =>
      simp only [BTypeInstruction.assemble, if_neg hreg, hn, withImmediate_value] at h
      split_ifs at h
      all_goals first
        | exact absurd (Except.ok.inj h) (by decide)
        | (have hl := congrArg String.length (Except.ok.inj h)
           simp [String.length_append, bitset_length, substr_length, string1_length] at hl
           exact absurd hl (by decide))
    | error e =>
      cases e with
      | invalid_argument => rfl
      | out_of_range =>
        simp only [BTypeInstruction.assemble, if_neg hreg, hn] at h
        cases h
  · intro hn
    simp only [BTypeInstruction.assemble, if_neg hreg, hn, withImmediate_invalid]

theorem jtype_invalid_immediate_iff (t0 t1 t2 : String) (reg : Register)
    (hreg : ¬ (reg.getRegNumber t1 = -1)) :
    JTypeInstruction.assemble [t0, t1, t2] reg = Except.ok "Invalid Immediate"
      ↔ stoi t2 = Except.error StdException.invalid_argument := by
  constructor
  · intro h
    cases hn : stoi t2 with
    | ok n =>
      simp only [JTypeInstruction.assemble, if_neg hreg, hn, withImmediate_value] at h
      split_ifs at h
      all_goals first
        | exact absurd (Except.ok.inj h) (by decide)
        | (have hl := congrArg String.length (Except.ok.inj h)
           simp [String.length_append, bitset_length, substr_length, string1_length] at hl
           exact absurd hl (by decide))
    | error e =>
      cases e with
      | invalid_argument => rfl
      | out_of_range =>
        simp only [JTypeInstruction.assemble, if_neg hreg, hn] at h
        cases h
  · intro hn
    simp only [JTypeInstruction.assemble, if_neg hreg, hn, withImmediate_invalid]

/-- C15, counterexample: "12abc", "4.5" and "0x10" are not optionally signed decimal
integers and the register tokens resolve, yet the encoders do not return "Invalid
Immediate": `stoi` reads the leading numeral (12, 4, 0) and the instruction is
encoded like the one with that numeral. -/
theorem nonnumeric_immediate_counterexample :
    Spec.isSignedDecimal "12abc" = false
    ∧ Spec.isSignedDecimal "4.5" = false
    ∧ Spec.isSignedDecimal "0x10" = false
    ∧ Register.new.getRegNumber "x1" ≠ -1
    ∧ Register.new.getRegNumber "x0" ≠ -1
    ∧ ITypeInstruction.assemble ["ADDI", "x1", "x0", "12abc"] Register.new
        = Except.ok "00000000110000000000000010010011"
    ∧ ITypeInstruction.assemble ["ADDI", "x1", "x0", "12"] Register.new
        = Except.ok "00000000110000000000000010010011"
    ∧ LoadInstruction.assemble ["LW", "x1", "x0", "4.5"] Register.new
        = LoadInstruction.assemble ["LW", "x1", "x0", "4"] Register.new
    ∧ LoadInstruction.assemble ["LW", "x1", "x0", "4.5"] Register.new
        ≠ Except.ok "Invalid Immediate"
    ∧ StoreInstruction.assemble ["SW", "x1", "x0", "0x10"] Register.new
        = StoreInstruction.assemble ["SW", "x1", "x0", "0"] Register.new
    ∧ StoreInstruction.assemble ["SW", "x1", "x0", "0x10"] Register.new
        ≠ Except.ok "Invalid Immediate" := by
  decide

/-- C15, amended: with the right token count and resolving register tokens, each of
the five encoders that take an immediate returns "Invalid Immediate" when the
immediate token does not begin, after optional white space, with an optional sign
followed by a decimal digit; "abc" and the empty token are such tokens, while
"12abc", "4.5" and "0x10" begin with a numeral and are outside this condition. -/
theorem nonnumeric_immediate_rejected (t0 t1 t2 t3 : String) (reg : Register)
    (h1 : reg.getRegNumber t1 ≠ -1) (h2 : reg.getRegNumber t2 ≠ -1)
    (h3 : Spec.startsWithNumeral t3 = false) :
    ITypeInstruction.assemble [t0, t1, t2, t3] reg = Except.ok "Invalid Immediate"
    ∧ LoadInstruction.assemble [t0, t1, t2, t3] reg = Except.ok "Invalid Immediate"
    ∧ StoreInstruction.assemble [t0, t1, t2, t3] reg = Except.ok "Invalid Immediate"
    ∧ BTypeInstruction.assemble [t0, t1, t2, t3] reg = Except.ok "Invalid Immediate"
    ∧ JTypeInstruction.assemble [t0, t1, t3] reg = Except.ok "Invalid Immediate"
    ∧ Spec.startsWithNumeral "abc" = false
    ∧ Spec.startsWithNumeral "" = false
    ∧ Spec.startsWithNumeral "12abc" = true
    ∧ Spec.startsWithNumeral "4.5" = true
    ∧ Spec.startsWithNumeral "0x10" = true := by
  have hreg : ¬ (reg.getRegNumber t1 = -1 ∨ reg.getRegNumber t2 = -1) := by
    intro h
    rcases h with h | h
    · exact h1 h
    · exact h2 h
  have hn : stoi t3 = Except.error StdException.invalid_argument :=
    (stoi_invalid_iff t3).mpr h3
  exact ⟨(itype_invalid_immediate_iff t0 t1 t2 t3 reg hreg).mpr hn,
    (load_invalid_immediate_iff t0 t1 t2 t3 reg hreg).mpr hn,
    (store_invalid_immediate_iff t0 t1 t2 t3 reg hreg).mpr hn,
    (btype_invalid_immediate_iff t0 t1 t2 t3 reg hreg).mpr hn,
    (jtype_invalid_immediate_iff t0 t1 t3 reg h1).mpr hn,
    by decide, by decide, by decide, by decide, by decide⟩

/-- C15, instance: `BGE x1, x2, abc` gives "Invalid Immediate". -/
theorem nonnumeric_immediate_rejected_witness :
    BTypeInstruction.assemble ["BGE", "x1", "x2", "abc"] Register.new
      = Except.ok "Invalid Immediate" :=
  (nonnumeric_immediate_rejected "BGE" "x1" "x2" "abc" Register.new (by decide)
    (by decide) (by decide)).2.2.2.1

/-! ## Lemmas on equal words -/

theorem append_right_inj_of_length (s₁ t₁ s₂ t₂ : String) (h : s₁ ++ t₁ = s₂ ++ t₂)
    (hl : t₁.length = t₂.length) : s₁ = s₂ ∧ t₁ = t₂ := by
  have hd := congrArg String.data h
  rw [String.data_append, String.data_append] at hd
  have hp := List.append_inj' hd hl
  exact ⟨String.ext hp.1, String.ext hp.2⟩

theorem bin5_length (n : Nat) : (Spec.bin5 n).length = 5 :=
  unsignedBin_length 5 n

theorem bin5_injective (i j : Nat) (hi : i ≤ 31) (hj : j ≤ 31)
    (h : Spec.bin5 i = Spec.bin5 j) : i = j := by
  rw [← readUnsigned_bin5 i hi, ← readUnsigned_bin5 j hj, h]

theorem regName_of_valid (name : String) (h : Register.new.getRegNumber name ≠ -1) :
    ∃ n : Nat, n ≤ 31 ∧ name = Spec.regName n := by
  rcases getRegNumber_cases name with h' | ⟨n, hn, he, _⟩
  · exact absurd h' h
  · exact ⟨n, hn, he⟩

theorem store_assemble_eq (m : String) (rs2 rs1 : Nat) (tok : String) (n : Int)
    (hrs2 : rs2 ≤ 31) (hrs1 : rs1 ≤ 31) (hn : stoi tok = Except.ok n)
    (hlo : -2048 ≤ n) (hhi : n ≤ 2047) :
    StoreInstruction.assemble [m, Spec.regName rs2, Spec.regName rs1, tok] Register.new
      = Except.ok (Spec.slice (Spec.twos 12 n) 0 6 ++ Spec.bin5 rs2 ++ Spec.bin5 rs1
          ++ "010" ++ Spec.slice (Spec.twos 12 n) 7 11 ++ "0100011") := by
  have hreg : ¬ ((rs2 : Int) = -1 ∨ (rs1 : Int) = -1) := by omega
  have hrange : ¬ (n < -2048 ∨ n > 2047) := by omega
  simp only [StoreInstruction.assemble, getRegNumber_regName _ hrs1,
    getRegNumber_regName _ hrs2, if_neg hreg, hn, withImmediate_value, if_neg hrange,
    bitset_eq_bin5 _ hrs1, bitset_eq_bin5 _ hrs2, bitset_eq_twos 12 _ (by decide)]
  rw [substr_eq_slice _ 0 7 (by decide), substr_eq_slice _ 7 5 (by decide)]

/-! ## Store operands -/

/-- C16: for every mnemonic token, every immediate token parsing to n with
-2048 ≤ n ≤ 2047 and two distinct register tokens a and b that resolve,
`StoreInstruction::assemble` on [m, a, b, imm] and on [m, b, a, imm] returns two
words of 32 binary digits, the first operand in the rs2 field and the second in the
rs1 field, and the two words differ. -/
theorem store_order_sensitive (m a b tok : String) (n : Int)
    (ha : Register.new.getRegNumber a ≠ -1) (hb : Register.new.getRegNumber b ≠ -1)
    (hab : a ≠ b) (hn : stoi tok = Except.ok n) (hlo : -2048 ≤ n) (hhi : n ≤ 2047) :
    ∃ w₁ w₂ : String,
      StoreInstruction.assemble [m, a, b, tok] Register.new = Except.ok w₁
      ∧ StoreInstruction.assemble [m, b, a, tok] Register.new = Except.ok w₂
      ∧ w₁ = Spec.slice (Spec.twos 12 n) 0 6
          ++ Spec.bin5 (Register.new.getRegNumber a).toNat
          ++ Spec.bin5 (Register.new.getRegNumber b).toNat
          ++ "010" ++ Spec.slice (Spec.twos 12 n) 7 11 ++ "0100011"
      ∧ w₂ = Spec.slice (Spec.twos 12 n) 0 6
          ++ Spec.bin5 (Register.new.getRegNumber b).toNat
          ++ Spec.bin5 (Register.new.getRegNumber a).toNat
          ++ "010" ++ Spec.slice (Spec.twos 12 n) 7 11 ++ "0100011"
      ∧ w₁.length = 32 ∧ w₂.length = 32
      ∧ w₁ ∉ Spec.sentinels ∧ w₂ ∉ Spec.sentinels
      ∧ w₁ ≠ w₂ := by
  obtain ⟨i, hi, rfl⟩ := regName_of_valid a ha
  obtain ⟨j, hj, rfl⟩ := regName_of_valid b hb
  have hij : i ≠ j := fun h => hab (by rw [h])
  have e₁ := store_assemble_eq m i j tok n hi hj hn hlo hhi
  have e₂ := store_assemble_eq m j i tok n hj hi hn hlo hhi
  have len : ∀ x y : Nat, (Spec.slice (Spec.twos 12 n) 0 6 ++ Spec.bin5 x ++ Spec.bin5 y
      ++ "010" ++ Spec.slice (Spec.twos 12 n) 7 11 ++ "0100011").length = 32 := by
    intro x y
    rw [← substr_eq_slice _ 0 7 (by decide), ← substr_eq_slice _ 7 5 (by decide)]
    simp [String.length_append, substr_length, twos_length, bin5_length]
    rfl
  have notSentinel : ∀ w : String, w.length = 32 → w ∉ Spec.sentinels := by
    intro w hw hmem
    have key : ∀ s ∈ Spec.sentinels, s.length ≠ 32 := by decide
    exact key w hmem hw
  refine ⟨_, _, e₁, e₂, ?_, ?_, len i j, len j i, notSentinel _ (len i j),
    notSentinel _ (len j i), ?_⟩
  · rw [getRegNumber_regName i hi, getRegNumber_regName j hj]
    rfl
  · rw [getRegNumber_regName i hi, getRegNumber_regName j hj]
    rfl
  · intro h
    have h1 := (append_right_inj_of_length _ _ _ _ h rfl).1
    have h2 := (append_right_inj_of_length _ _ _ _ h1 rfl).1
    have h3 := (append_right_inj_of_length _ _ _ _ h2 rfl).1
    have h4 := (append_right_inj_of_length _ _ _ _ h3
      (by rw [bin5_length, bin5_length])).2
    exact hij (bin5_injective j i hj hi h4).symm

/-- C16, instance: `SW x1, x2, 8` and `SW x2, x1, 8` are encoded as two different
words. -/
theorem store_order_sensitive_witness :
    StoreInstruction.assemble ["SW", "x1", "x2", "8"] Register.new
      ≠ StoreInstruction.assemble ["SW", "x2", "x1", "8"] Register.new := by
  obtain ⟨w₁, w₂, h₁, h₂, _, _, _, _, _, _, hne⟩ :=
    store_order_sensitive "SW" "x1" "x2" "8" 8 (by decide) (by decide) (by decide)
      (by decide) (by decide) (by decide)
  rw [h₁, h₂]
  exact fun h => hne (Except.ok.inj h)

/-! ## Lemmas on tokenization -/

theorem extractTokens_eq_nil_iff (l cur : List Char) :
    extractTokens l cur = [] ↔ cur = [] ∧ ∀ c ∈ l, isspace c = true := by
  induction l generalizing cur with
  | nil =>
    unfold extractTokens
    by_cases hc : cur = []
    · simp [hc]
    · simp [hc]
  | cons c cs ih =>
    unfold extractTokens
    by_cases hs : isspace c = true
    · rw [if_pos hs]
      by_cases hc : cur = []
      · rw [if_pos hc, ih]
        simp [hc, hs]
      · rw [if_neg hc]
        simp [hc]
    · rw [if_neg hs, ih]
      simp [hs]

theorem extractTokens_no_space (l cur : List Char) (h : ∀ c ∈ l, isspace c = false)
    (hne : cur.reverse ++ l ≠ []) :
    extractTokens l cur = [String.mk (cur.reverse ++ l)] := by
  induction l generalizing cur with
  | nil =>
    unfold extractTokens
    have hc : cur ≠ [] := by
      intro hc
      apply hne
      simp [hc]
    rw [if_neg hc, List.append_nil]
  | cons c cs ih =>
    unfold extractTokens
    have hs : ¬ (isspace c = true) := by
      rw [h c (List.mem_cons_self _ _)]
      decide
    rw [if_neg hs, ih (c :: cur) (fun d hd => h d (List.mem_cons_of_mem _ hd)) (by simp)]
    simp

theorem tokenize_commas (k : Nat) (hk : 0 < k) :
    Assembler.tokenize (String.mk (List.replicate k ',')) = [""] := by
  unfold Assembler.tokenize
  have hsp : ∀ c ∈ List.replicate k ',', isspace c = false := by
    intro c hc
    rw [List.eq_of_mem_replicate hc]
    decide
  have hne : ([] : List Char).reverse ++ List.replicate k ',' ≠ [] := by
    cases k with
    | zero => omega
    | succ k => simp [List.replicate_succ]
  rw [extractTokens_no_space _ [] hsp hne]
  have hf : (List.replicate k ',').filter (fun c => c != ',') = [] := by
    rw [List.filter_eq_nil_iff]
    intro c hc
    rw [List.eq_of_mem_replicate hc]
    decide
  show [removeCommas (String.mk (List.replicate k ','))] = [""]
  unfold removeCommas
  rw [hf]

theorem instr_shape (instr : Instruction) (tokens : List String) (reg : Register)
    (s : String) (h : instr.assemble tokens reg = Except.ok s) :
    s ∈ Spec.sentinels ∨ (s.length = 32 ∧ Spec.binary s) := by
  cases instr
  · exact rtype_shape tokens reg s h
  · exact itype_shape tokens reg s h
  · exact load_shape tokens reg s h
  · exact store_shape tokens reg s h
  · exact btype_shape tokens reg s h
  · exact jtype_shape tokens reg s h

theorem shape_ne_empty (s : String)
    (h : s ∈ Spec.sentinels ∨ (s.length = 32 ∧ Spec.binary s)) : s ≠ "" := by
  intro he
  subst he
  rcases h with h | ⟨h, _⟩
  · exact absurd h (by decide)
  · exact absurd h (by decide)

/-! ## Blank lines -/

/-- C17: whenever `Assembler::encodeInstruction` returns, its result is the empty
string exactly when the line has no token, that is when every character of the line
is white space; none of the six encoders returns the empty string; and a line made
of commas only has the single empty token and gives "Unknown Instruction". -/
theorem blank_lines (line s : String)
    (h : Assembler.new.encodeInstruction line = Except.ok s) :
    (s = "" ↔ Assembler.tokenize line = [])
    ∧ (Assembler.tokenize line = [] ↔ ∀ c ∈ line.data, isspace c = true)
    ∧ (∀ (tokens : List String) (reg : Register),
        RTypeInstruction.assemble tokens reg ≠ Except.ok ""
        ∧ ITypeInstruction.assemble tokens reg ≠ Except.ok ""
        ∧ LoadInstruction.assemble tokens reg ≠ Except.ok ""
        ∧ StoreInstruction.assemble tokens reg ≠ Except.ok ""
        ∧ BTypeInstruction.assemble tokens reg ≠ Except.ok ""
        ∧ JTypeInstruction.assemble tokens reg ≠ Except.ok "")
    ∧ (∀ k : Nat, 0 < k →
        Assembler.tokenize (String.mk (List.replicate k ',')) = [""]
        ∧ Assembler.new.encodeInstruction (String.mk (List.replicate k ','))
            = Except.ok "Unknown Instruction") := by
  refine ⟨?_, ?_, ?_, ?_⟩
  · constructor
    · intro hs
      cases ht : Assembler.tokenize line with
      | nil => rfl
      | cons t rest =>
        exfalso
        rw [encodeInstruction_cons line t rest ht] at h
        cases hf : mapFind Assembler.new.instructionSet t with
        | none =>
          rw [hf] at h
          rw [hs] at h
          exact absurd (Except.ok.inj h) (by decide)
        | some instr =>
          rw [hf] at h
          exact shape_ne_empty s (instr_shape instr _ _ s h) hs
    · intro ht
      simp only [Assembler.encodeInstruction, ht] at h
      exact (Except.ok.inj h).symm
  · unfold Assembler.tokenize
    rw [List.map_eq_nil_iff, extractTokens_eq_nil_iff]
    simp
  · intro tokens reg
    refine ⟨?_, ?_, ?_, ?_, ?_, ?_⟩
    · exact fun h => shape_ne_empty _ (rtype_shape tokens reg _ h) rfl
    · exact fun h => shape_ne_empty _ (itype_shape tokens reg _ h) rfl
    · exact fun h => shape_ne_empty _ (load_shape tokens reg _ h) rfl
    · exact fun h => shape_ne_empty _ (store_shape tokens reg _ h) rfl
    · exact fun h => shape_ne_empty _ (btype_shape tokens reg _ h) rfl
    · exact fun h => shape_ne_empty _ (jtype_shape tokens reg _ h) rfl
  · intro k hk
    have ht := tokenize_commas k hk
    refine ⟨ht, ?_⟩
    rw [encodeInstruction_cons _ "" [] ht]
    rfl

/-- C17, instance: the line made of a space, a tab and a space has no token. -/
theorem blank_lines_witness : Assembler.tokenize " \t " = [] :=
  (blank_lines " \t " "" (by decide)).1.mp rfl

/-! ## Immediates of ADDI and ANDI beyond twelve bits -/

theorem bitset12_congr (n n' : Int) (h : n % 4096 = n' % 4096) :
    bitset 12 n = bitset 12 n' := by
  have e : (2 : Int) ^ 12 = 4096 := by norm_num
  rw [bitset_eq_twos 12 n (by decide), bitset_eq_twos 12 n' (by decide)]
  unfold Spec.twos
  rw [e, h]

/-- C18: `ITypeInstruction::assemble` checks no range for ADDI and ANDI: two immediate
tokens parsing to ints that are congruent modulo 4096 give, with the same mnemonic
and register tokens, the same result, which is one 32-digit word when the register
tokens resolve; so 0 and 4096, and -1 and 4095, are encoded alike, and on no token
list does the encoder return "Immediate out of range". -/
theorem itype_truncation (m t1 t2 tokA tokB : String) (reg : Register) (n n' : Int)
    (hm : m ∈ ["ADDI", "ANDI"]) (hA : stoi tokA = Except.ok n)
    (hB : stoi tokB = Except.ok n') (hc : n % 4096 = n' % 4096) :
    ITypeInstruction.assemble [m, t1, t2, tokA] reg
      = ITypeInstruction.assemble [m, t1, t2, tokB] reg
    ∧ (reg.getRegNumber t1 ≠ -1 → reg.getRegNumber t2 ≠ -1 →
        ∃ w : String, ITypeInstruction.assemble [m, t1, t2, tokA] reg = Except.ok w
          ∧ ITypeInstruction.assemble [m, t1, t2, tokB] reg = Except.ok w
          ∧ w.length = 32 ∧ w ∉ Spec.sentinels)
    ∧ ITypeInstruction.assemble ["ADDI", "x1", "x2", "0"] Register.new
        = ITypeInstruction.assemble ["ADDI", "x1", "x2", "4096"] Register.new
    ∧ ITypeInstruction.assemble ["ANDI", "x1", "x2", "-1"] Register.new
        = ITypeInstruction.assemble ["ANDI", "x1", "x2", "4095"] Register.new
    ∧ ∀ (tokens : List String) (reg' : Register),
        ITypeInstruction.assemble tokens reg' ≠ Except.ok "Immediate out of range" := by
  have hb := bitset12_congr n n' hc
  have heq : ITypeInstruction.assemble [m, t1, t2, tokA] reg
      = ITypeInstruction.assemble [m, t1, t2, tokB] reg := by
    have hne : ¬ ("ANDI" = "ADDI") := by decide
    simp only [List.mem_cons, List.mem_singleton, List.not_mem_nil, or_false] at hm
    rcases hm with h | h <;> subst h <;>
      simp only [ITypeInstruction.assemble, hA, hB, withImmediate_value, hb, if_true,
        if_neg hne]
  refine ⟨heq, ?_, by decide, by decide, ?_⟩
  · intro h1 h2
    have hreg : ¬ (reg.getRegNumber t1 = -1 ∨ reg.getRegNumber t2 = -1) := by
      intro h
      rcases h with h | h
      · exact h1 h
      · exact h2 h
    have hw : ∃ w : String, ITypeInstruction.assemble [m, t1, t2, tokA] reg = Except.ok w
        ∧ w.length = 32 := by
      have hne : ¬ ("ANDI" = "ADDI") := by decide
      simp only [List.mem_cons, List.mem_singleton, List.not_mem_nil, or_false] at hm
      rcases hm with h | h <;> subst h
      · refine ⟨_, by simp only [ITypeInstruction.assemble, if_neg hreg, hA,
          withImmediate_value, if_true]; rfl, ?_⟩
        simp [String.length_append, bitset_length]
        rfl
      · refine ⟨_, by simp only [ITypeInstruction.assemble, if_neg hreg, hA,
          withImmediate_value, if_true, if_neg hne]; rfl, ?_⟩
        simp [String.length_append, bitset_length]
        rfl
    obtain ⟨w, hw1, hw2⟩ := hw
    refine ⟨w, hw1, heq ▸ hw1, hw2, ?_⟩
    intro hmem
    have key : ∀ s ∈ Spec.sentinels, s.length ≠ 32 := by decide
    exact key w hmem hw2
  · intro tokens reg' h
    rcases itype_shape tokens reg' _ h with h1 | ⟨h2, _⟩
    · unfold ITypeInstruction.assemble at h
      split at h
      · rename_i t0 u1 u2 u3
        dsimp only at h
        by_cases hreg : reg'.getRegNumber u1 = -1 ∨ reg'.getRegNumber u2 = -1
        · rw [if_pos hreg] at h
          exact absurd (Except.ok.inj h) (by decide)
        · rw [if_neg hreg] at h
          rcases withImmediate_ok _ _ _ h with h3 | ⟨imm, _, hb'⟩
          · exact absurd h3 (by decide)
          · split_ifs at hb'
            all_goals first
              | exact absurd (Except.ok.inj hb') (by decide)
              | (have hl := congrArg String.length (Except.ok.inj hb')
                 simp [String.length_append, bitset_length] at hl
                 exact absurd hl (by decide))
      · exact absurd (Except.ok.inj h) (by decide)
    · exact absurd h2 (by decide)

/-- C18, instance: `ADDI x1, x2, 5` and `ADDI x1, x2, 4101` are encoded alike. -/
theorem itype_truncation_witness :
    ITypeInstruction.assemble ["ADDI", "x1", "x2", "5"] Register.new
      = ITypeInstruction.assemble ["ADDI", "x1", "x2", "4101"] Register.new :=
  (itype_truncation "ADDI" "x1" "x2" "5" "4101" Register.new 5 4101 (by decide)
    (by decide) (by decide) (by decide)).1

/-! ## Lemmas on the "unsupported" branches -/

theorem unsupported_length (s : String) (hs : s ∈ Spec.unsupported) : s.length ≠ 32 := by
  have key : ∀ u ∈ Spec.unsupported, u.length ≠ 32 := by decide
  exact key s hs

theorem rtype_unsupported (tokens : List String) (reg : Register) (s t : String)
    (h : RTypeInstruction.assemble tokens reg = Except.ok s) (hs : s ∈ Spec.unsupported)
    (ht : tokens.head? = some t) : t ∉ Spec.rtypeMnemonics := by
  unfold RTypeInstruction.assemble at h
  split at h
  · rename_i t0 t1 t2 t3
    cases ht
    dsimp only at h
    by_cases hreg : reg.getRegNumber t1 = -1 ∨ reg.getRegNumber t2 = -1
        ∨ reg.getRegNumber t3 = -1
    · rw [if_pos hreg] at h
      cases h
      exact absurd hs (by decide)
    · rw [if_neg hreg] at h
      split_ifs at h with hA hB hC hD <;> cases h
      all_goals first
        | (exfalso
           refine unsupported_length _ hs ?_
           simp [String.length_append, bitset_length]
           rfl)
        | (intro hmem
           simp only [Spec.rtypeMnemonics, List.mem_cons, List.mem_singleton,
             List.not_mem_nil, or_false] at hmem
           rcases hmem with e | e | e | e
           · exact hA e
           · exact hB e
           · exact hC e
           · exact hD e)
  · cases h
    exact absurd hs (by decide)

theorem itype_unsupported (tokens : List String) (reg : Register) (s t : String)
    (h : ITypeInstruction.assemble tokens reg = Except.ok s) (hs : s ∈ Spec.unsupported)
    (ht : tokens.head? = some t) : t ∉ Spec.immMnemonics := by
  unfold ITypeInstruction.assemble at h
  split at h
  · rename_i t0 t1 t2 t3
    cases ht
    dsimp only at h
    by_cases hreg : reg.getRegNumber t1 = -1 ∨ reg.getRegNumber t2 = -1
    · rw [if_pos hreg] at h
      cases h
      exact absurd hs (by decide)
    · rw [if_neg hreg] at h
      rcases withImmediate_ok _ _ _ h with rfl | ⟨imm, _, hb⟩
      · exact absurd hs (by decide)
      · split_ifs at hb with hA hB hC hR <;> cases hb
        all_goals first
          | exact absurd hs (by decide)
          | (exfalso
             refine unsupported_length _ hs ?_
             simp [String.length_append, bitset_length]
             rfl)
          | (intro hmem
             simp only [Spec.immMnemonics, List.mem_cons, List.mem_singleton,
               List.not_mem_nil, or_false] at hmem
             rcases hmem with e | e | e
             · exact hA e
             · exact hB e
             · exact hC e)
  · cases h
    exact absurd hs (by decide)

theorem load_unsupported (tokens : List String) (reg : Register) (s t : String)
    (h : LoadInstruction.assemble tokens reg = Except.ok s) (hs : s ∈ Spec.unsupported)
    (ht : tokens.head? = some t) : t ∉ Spec.loadMnemonics := by
  unfold LoadInstruction.assemble at h
  split at h
  · rename_i t0 t1 t2 t3
    cases ht
    dsimp only at h
    by_cases hreg : reg.getRegNumber t1 = -1 ∨ reg.getRegNumber t2 = -1
    · rw [if_pos hreg] at h
      cases h
      exact absurd hs (by decide)
    · rw [if_neg hreg] at h
      rcases withImmediate_ok _ _ _ h with rfl | ⟨imm, _, hb⟩
      · exact absurd hs (by decide)
      · split_ifs at hb with hR hA hB hC hD hE <;> cases hb
        all_goals first
          | exact absurd hs (by decide)
          | (exfalso
             refine unsupported_length _ hs ?_
             simp [String.length_append, bitset_length]
             rfl)
          | (intro hmem
             simp only [Spec.loadMnemonics, List.mem_cons, List.mem_singleton,
               List.not_mem_nil, or_false] at hmem
             rcases hmem with e | e | e | e | e
             · exact hB e
             · exact hC e
             · exact hA e
             · exact hD e
             · exact hE e)
  · cases h
    exact absurd hs (by decide)

theorem btype_unsupported (tokens : List String) (reg : Register) (s t : String)
    (h : BTypeInstruction.assemble tokens reg = Except.ok s) (hs : s ∈ Spec.unsupported)
    (ht : tokens.head? = some t) : t ∉ Spec.branchMnemonics := by
  unfold BTypeInstruction.assemble at h
  split at h
  · rename_i t0 t1 t2 t3
    cases ht
    dsimp only at h
    by_cases hreg : reg.getRegNumber t1 = -1 ∨ reg.getRegNumber t2 = -1
    · rw [if_pos hreg] at h
      cases h
      exact absurd hs (by decide)
    · rw [if_neg hreg] at h
      rcases withImmediate_ok _ _ _ h with rfl | ⟨imm, _, hb⟩
      · exact absurd hs (by decide)
      · split_ifs at hb with hA hB hC hD <;> cases hb
        all_goals first
          | (exfalso
             refine unsupported_length _ hs ?_
             simp [String.length_append, bitset_length, substr_length, string1_length]
             rfl)
          | (intro hmem
             simp only [Spec.branchMnemonics, List.mem_cons, List.mem_singleton,
               List.not_mem_nil, or_false] at hmem
             rcases hmem with e | e | e | e
             · exact hA e
             · exact hB e
             · exact hC e
             · exact hD e)
  · cases h
    exact absurd hs (by decide)

theorem store_not_unsupported (tokens : List String) (reg : Register) (s : String)
    (h : StoreInstruction.assemble tokens reg = Except.ok s) : s ∉ Spec.unsupported := by
  intro hs
  unfold StoreInstruction.assemble at h
  split at h
  · rename_i t0 t1 t2 t3
    dsimp only at h
    by_cases hreg : reg.getRegNumber t1 = -1 ∨ reg.getRegNumber t2 = -1
    · rw [if_pos hreg] at h
      cases h
      exact absurd hs (by decide)
    · rw [if_neg hreg] at h
      rcases withImmediate_ok _ _ _ h with rfl | ⟨imm, _, hb⟩
      · exact absurd hs (by decide)
      · split_ifs at hb <;> cases hb
        all_goals first
          | exact absurd hs (by decide)
          | (refine unsupported_length _ hs ?_
             simp [String.length_append, bitset_length, substr_length]
             rfl)
  · cases h
    exact absurd hs (by decide)

theorem jtype_not_unsupported (tokens : List String) (reg : Register) (s : String)
    (h : JTypeInstruction.assemble tokens reg = Except.ok s) : s ∉ Spec.unsupported := by
  intro hs
  unfold JTypeInstruction.assemble at h
  split at h
  · rename_i t0 t1 t2
    dsimp only at h
    by_cases hreg : reg.getRegNumber t1 = -1
    · rw [if_pos hreg] at h
      cases h
      exact absurd hs (by decide)
    · rw [if_neg hreg] at h
      rcases withImmediate_ok _ _ _ h with rfl | ⟨imm, _, hb⟩
      · exact absurd hs (by decide)
      · split_ifs at hb <;> cases hb
        all_goals first
          | exact absurd hs (by decide)
          | (refine unsupported_length _ hs ?_
             simp [String.length_append, bitset_length, substr_length, string1_length]
             rfl)
  · cases h
    exact absurd hs (by decide)

theorem instr_unsupported (instr : Instruction) (tokens : List String) (reg : Register)
    (s t : String) (h : instr.assemble tokens reg = Except.ok s)
    (hs : s ∈ Spec.unsupported) (ht : tokens.head? = some t) :
    Spec.supportedBy instr t = false := by
  cases instr
  · exact decide_eq_false (rtype_unsupported tokens reg s t h hs ht)
  · exact decide_eq_false (itype_unsupported tokens reg s t h hs ht)
  · exact decide_eq_false (load_unsupported tokens reg s t h hs ht)
  · exact absurd hs (store_not_unsupported tokens reg s h)
  · exact decide_eq_false (btype_unsupported tokens reg s t h hs ht)
  · exact absurd hs (jtype_not_unsupported tokens reg s h)

theorem dispatch_supported (e : String × Instruction)
    (he : e ∈ Assembler.new.instructionSet) : Spec.supportedBy e.2 e.1 = true := by
  have key : ∀ e ∈ Assembler.new.instructionSet, Spec.supportedBy e.2 e.1 = true := by
    decide
  exact key e he

/-! ## Unreachable branches -/

/-- C19: whatever the line, a result that `Assembler::encodeInstruction` returns is
none of "Unsupported R-type Instruction", "Unsupported I-type Instruction",
"Unsupported Load Instruction" and "Unsupported B-type Instruction": every mnemonic
that the dispatch table binds to an encoder is one this encoder supports. -/
theorem unsupported_unreachable (line s : String)
    (h : Assembler.new.encodeInstruction line = Except.ok s) :
    s ≠ "Unsupported R-type Instruction"
    ∧ s ≠ "Unsupported I-type Instruction"
    ∧ s ≠ "Unsupported Load Instruction"
    ∧ s ≠ "Unsupported B-type Instruction"
    ∧ ∀ e ∈ Assembler.new.instructionSet, Spec.supportedBy e.2 e.1 = true := by
  have key : s ∉ Spec.unsupported := by
    intro hs
    cases ht : Assembler.tokenize line with
    | nil =>
      simp only [Assembler.encodeInstruction, ht] at h
      cases h
      exact absurd hs (by decide)
    | cons t rest =>
      rw [encodeInstruction_cons line t rest ht] at h
      cases hf : mapFind Assembler.new.instructionSet t with
      | none =>
        rw [hf] at h
        cases h
        exact absurd hs (by decide)
      | some instr =>
        rw [hf] at h
        have h1 := instr_unsupported instr (t :: rest) Register.new s t h hs rfl
        have h2 := dispatch_supported (t, instr) (mapFind_mem _ _ _ hf)
        rw [h1] at h2
        cases h2
  refine ⟨?_, ?_, ?_, ?_, fun e he => dispatch_supported e he⟩
  · exact fun e => key (by rw [e]; decide)
  · exact fun e => key (by rw [e]; decide)
  · exact fun e => key (by rw [e]; decide)
  · exact fun e => key (by rw [e]; decide)

/-- C19, instance: the result of `BGE x1, x2, 4` is not "Unsupported B-type
Instruction". -/
theorem unsupported_unreachable_witness :
    "00000000001000001101001001100011" ≠ "Unsupported B-type Instruction" :=
  (unsupported_unreachable "BGE x1, x2, 4" "00000000001000001101001001100011"
    (by decide)).2.2.2.1

/-! ## Lemmas on decoding register-register and load words -/

theorem rtype_word_inv (tokens : List String) (w : String)
    (h : RTypeInstruction.assemble tokens Register.new = Except.ok w)
    (hw : w.length = 32) :
    ∃ (m : String) (i j k : Nat), m ∈ Spec.rtypeMnemonics ∧ i ≤ 31 ∧ j ≤ 31 ∧ k ≤ 31
      ∧ tokens = [m, Spec.regName i, Spec.regName j, Spec.regName k]
      ∧ w = (Spec.rtypeFunct m).1 ++ Spec.bin5 k ++ Spec.bin5 j ++ (Spec.rtypeFunct m).2
          ++ Spec.bin5 i ++ "0110011" := by
  unfold RTypeInstruction.assemble at h
  split at h
  · rename_i t0 t1 t2 t3
    dsimp only at h
    by_cases hreg : Register.new.getRegNumber t1 = -1 ∨ Register.new.getRegNumber t2 = -1
        ∨ Register.new.getRegNumber t3 = -1
    · rw [if_pos hreg] at h
      cases h
      exact absurd hw (by decide)
    · rw [if_neg hreg] at h
      obtain ⟨i, hi, rfl⟩ := regName_of_valid t1 (fun e => hreg (Or.inl e))
      obtain ⟨j, hj, rfl⟩ := regName_of_valid t2 (fun e => hreg (Or.inr (Or.inl e)))
      obtain ⟨k, hk, rfl⟩ := regName_of_valid t3 (fun e => hreg (Or.inr (Or.inr e)))
      simp only [getRegNumber_regName _ hi, getRegNumber_regName _ hj,
        getRegNumber_regName _ hk, bitset_eq_bin5 _ hi, bitset_eq_bin5 _ hj,
        bitset_eq_bin5 _ hk] at h
      split_ifs at h with hA hB hC hD <;> have e := Except.ok.inj h <;> subst e
      · subst hA
        exact ⟨"ADD", i, j, k, by decide, hi, hj, hk, rfl, rfl⟩
      · subst hB
        exact ⟨"SUB", i, j, k, by decide, hi, hj, hk, rfl, rfl⟩
      · subst hC
        exact ⟨"AND", i, j, k, by decide, hi, hj, hk, rfl, rfl⟩
      · subst hD
        exact ⟨"OR", i, j, k, by decide, hi, hj, hk, rfl, rfl⟩
      · exact absurd hw (by decide)
  · cases h
    exact absurd hw (by decide)

theorem load_word_inv (tokens : List String) (w : String)
    (h : LoadInstruction.assemble tokens Register.new = Except.ok w)
    (hw : w.length = 32) :
    ∃ (m tok : String) (i j : Nat) (n : Int), m ∈ Spec.loadMnemonics ∧ i ≤ 31 ∧ j ≤ 31
      ∧ stoi tok = Except.ok n ∧ -2048 ≤ n ∧ n ≤ 2047
      ∧ tokens = [m, Spec.regName i, Spec.regName j, tok]
      ∧ w = Spec.twos 12 n ++ Spec.bin5 j ++ Spec.loadFunct3 m ++ Spec.bin5 i
          ++ "0000011" := by
  unfold LoadInstruction.assemble at h
  split at h
  · rename_i t0 t1 t2 t3
    dsimp only at h
    by_cases hreg : Register.new.getRegNumber t1 = -1 ∨ Register.new.getRegNumber t2 = -1
    · rw [if_pos hreg] at h
      cases h
      exact absurd hw (by decide)
    · rw [if_neg hreg] at h
      obtain ⟨i, hi, rfl⟩ := regName_of_valid t1 (fun e => hreg (Or.inl e))
      obtain ⟨j, hj, rfl⟩ := regName_of_valid t2 (fun e => hreg (Or.inr e))
      rcases withImmediate_ok _ _ _ h with rfl | ⟨n, hn, hb⟩
      · exact absurd hw (by decide)
      · simp only [getRegNumber_regName _ hi, getRegNumber_regName _ hj,
          bitset_eq_bin5 _ hi, bitset_eq_bin5 _ hj, bitset_eq_twos 12 _ (by decide)] at hb
        by_cases hrange : n < -2048 ∨ n > 2047
        · rw [if_pos hrange] at hb
          cases hb
          exact absurd hw (by decide)
        · rw [if_neg hrange] at hb
          have hlo : -2048 ≤ n := by omega
          have hhi : n ≤ 2047 := by omega
          split_ifs at hb with hA hB hC hD hE <;> have e := Except.ok.inj hb <;> subst e
          · subst hA
            exact ⟨"LW", t3, i, j, n, by decide, hi, hj, hn, hlo, hhi, rfl,
              by rw [show Spec.loadFunct3 "LW" = "010" from rfl]⟩
          · subst hB
            exact ⟨"LB", t3, i, j, n, by decide, hi, hj, hn, hlo, hhi, rfl,
              by rw [show Spec.loadFunct3 "LB" = "000" from rfl]⟩
          · subst hC
            exact ⟨"LH", t3, i, j, n, by decide, hi, hj, hn, hlo, hhi, rfl,
              by rw [show Spec.loadFunct3 "LH" = "001" from rfl]⟩
          · subst hD
            exact ⟨"LBU", t3, i, j, n, by decide, hi, hj, hn, hlo, hhi, rfl,
              by rw [show Spec.loadFunct3 "LBU" = "100" from rfl]⟩
          · subst hE
            exact ⟨"LHU", t3, i, j, n, by decide, hi, hj, hn, hlo, hhi, rfl,
              by rw [show Spec.loadFunct3 "LHU" = "101" from rfl]⟩
          · exact absurd hw (by decide)
  · cases h
    exact absurd hw (by decide)

theorem dispatch_rtype (m : String) (hm : m ∈ Spec.rtypeMnemonics) :
    mapFind Assembler.new.instructionSet m = some Instruction.RType := by
  have key : ∀ m ∈ Spec.rtypeMnemonics,
      mapFind Assembler.new.instructionSet m = some Instruction.RType := by decide
  exact key m hm

theorem dispatch_load (m : String) (hm : m ∈ Spec.loadMnemonics) :
    mapFind Assembler.new.instructionSet m = some Instruction.Load := by
  have key : ∀ m ∈ Spec.loadMnemonics,
      mapFind Assembler.new.instructionSet m = some Instruction.Load := by decide
  exact key m hm

theorem rtypeFunct_lengths (m : String) (hm : m ∈ Spec.rtypeMnemonics) :
    (Spec.rtypeFunct m).1.length = 7 ∧ (Spec.rtypeFunct m).2.length = 3 := by
  have key : ∀ m ∈ Spec.rtypeMnemonics,
      (Spec.rtypeFunct m).1.length = 7 ∧ (Spec.rtypeFunct m).2.length = 3 := by decide
  exact key m hm

theorem rtypeFunct_injective (m₁ m₂ : String) (h₁ : m₁ ∈ Spec.rtypeMnemonics)
    (h₂ : m₂ ∈ Spec.rtypeMnemonics) (e₁ : (Spec.rtypeFunct m₁).1 = (Spec.rtypeFunct m₂).1)
    (e₂ : (Spec.rtypeFunct m₁).2 = (Spec.rtypeFunct m₂).2) : m₁ = m₂ := by
  have key : ∀ a ∈ Spec.rtypeMnemonics, ∀ b ∈ Spec.rtypeMnemonics,
      (Spec.rtypeFunct a).1 = (Spec.rtypeFunct b).1 →
      (Spec.rtypeFunct a).2 = (Spec.rtypeFunct b).2 → a = b := by decide
  exact key m₁ h₁ m₂ h₂ e₁ e₂

theorem loadFunct3_length (m : String) (hm : m ∈ Spec.loadMnemonics) :
    (Spec.loadFunct3 m).length = 3 := by
  have key : ∀ m ∈ Spec.loadMnemonics, (Spec.loadFunct3 m).length = 3 := by decide
  exact key m hm

theorem loadFunct3_injective (m₁ m₂ : String) (h₁ : m₁ ∈ Spec.loadMnemonics)
    (h₂ : m₂ ∈ Spec.loadMnemonics) (e : Spec.loadFunct3 m₁ = Spec.loadFunct3 m₂) :
    m₁ = m₂ := by
  have key : ∀ a ∈ Spec.loadMnemonics, ∀ b ∈ Spec.loadMnemonics,
      Spec.loadFunct3 a = Spec.loadFunct3 b → a = b := by decide
  exact key m₁ h₁ m₂ h₂ e

theorem twos12_injective (n₁ n₂ : Int) (h₁ : -2048 ≤ n₁ ∧ n₁ ≤ 2047)
    (h₂ : -2048 ≤ n₂ ∧ n₂ ≤ 2047) (h : Spec.twos 12 n₁ = Spec.twos 12 n₂) : n₁ = n₂ := by
  rw [← readSigned_twos12 n₁ h₁.1 h₁.2, ← readSigned_twos12 n₂ h₂.1 h₂.2, h]

theorem rtype_words_eq (m₁ m₂ : String) (i₁ j₁ k₁ i₂ j₂ k₂ : Nat)
    (hm₁ : m₁ ∈ Spec.rtypeMnemonics) (hm₂ : m₂ ∈ Spec.rtypeMnemonics)
    (hi₁ : i₁ ≤ 31) (hj₁ : j₁ ≤ 31) (hk₁ : k₁ ≤ 31)
    (hi₂ : i₂ ≤ 31) (hj₂ : j₂ ≤ 31) (hk₂ : k₂ ≤ 31)
    (h : (Spec.rtypeFunct m₁).1 ++ Spec.bin5 k₁ ++ Spec.bin5 j₁ ++ (Spec.rtypeFunct m₁).2
          ++ Spec.bin5 i₁ ++ "0110011"
        = (Spec.rtypeFunct m₂).1 ++ Spec.bin5 k₂ ++ Spec.bin5 j₂ ++ (Spec.rtypeFunct m₂).2
          ++ Spec.bin5 i₂ ++ "0110011") :
    m₁ = m₂ ∧ i₁ = i₂ ∧ j₁ = j₂ ∧ k₁ = k₂ := by
  have h1 := append_right_inj_of_length _ _ _ _ h rfl
  have h2 := append_right_inj_of_length _ _ _ _ h1.1 (by rw [bin5_length, bin5_length])
  have h3 := append_right_inj_of_length _ _ _ _ h2.1
    (by rw [(rtypeFunct_lengths m₁ hm₁).2, (rtypeFunct_lengths m₂ hm₂).2])
  have h4 := append_right_inj_of_length _ _ _ _ h3.1 (by rw [bin5_length, bin5_length])
  have h5 := append_right_inj_of_length _ _ _ _ h4.1 (by rw [bin5_length, bin5_length])
  exact ⟨rtypeFunct_injective m₁ m₂ hm₁ hm₂ h5.1 h3.2,
    bin5_injective _ _ hi₁ hi₂ h2.2, bin5_injective _ _ hj₁ hj₂ h4.2,
    bin5_injective _ _ hk₁ hk₂ h5.2⟩

theorem load_words_eq (m₁ m₂ : String) (i₁ j₁ i₂ j₂ : Nat) (n₁ n₂ : Int)
    (hm₁ : m₁ ∈ Spec.loadMnemonics) (hm₂ : m₂ ∈ Spec.loadMnemonics)
    (hi₁ : i₁ ≤ 31) (hj₁ : j₁ ≤ 31) (hi₂ : i₂ ≤ 31) (hj₂ : j₂ ≤ 31)
    (hn₁ : -2048 ≤ n₁ ∧ n₁ ≤ 2047) (hn₂ : -2048 ≤ n₂ ∧ n₂ ≤ 2047)
    (h : Spec.twos 12 n₁ ++ Spec.bin5 j₁ ++ Spec.loadFunct3 m₁ ++ Spec.bin5 i₁ ++ "0000011"
        = Spec.twos 12 n₂ ++ Spec.bin5 j₂ ++ Spec.loadFunct3 m₂ ++ Spec.bin5 i₂
          ++ "0000011") :
    m₁ = m₂ ∧ i₁ = i₂ ∧ j₁ = j₂ ∧ n₁ = n₂ := by
  have h1 := append_right_inj_of_length _ _ _ _ h rfl
  have h2 := append_right_inj_of_length _ _ _ _ h1.1 (by rw [bin5_length, bin5_length])
  have h3 := append_right_inj_of_length _ _ _ _ h2.1
    (by rw [loadFunct3_length m₁ hm₁, loadFunct3_length m₂ hm₂])
  have h4 := append_right_inj_of_length _ _ _ _ h3.1 (by rw [bin5_length, bin5_length])
  exact ⟨loadFunct3_injective m₁ m₂ hm₁ hm₂ h3.2, bin5_injective _ _ hi₁ hi₂ h2.2,
    bin5_injective _ _ hj₁ hj₂ h4.2, twos12_injective n₁ n₂ hn₁ hn₂ h4.1⟩

theorem rtype_load_words_ne (a b : String) (h : a ++ "0110011" = b ++ "0000011") : False :=
  absurd (append_right_inj_of_length _ _ _ _ h rfl).2 (by decide)

theorem encode_rtype (line m : String) (rest : List String) (w : String)
    (ht : Assembler.tokenize line = m :: rest) (hm : m ∈ Spec.rtypeMnemonics)
    (h : Assembler.new.encodeInstruction line = Except.ok w) :
    RTypeInstruction.assemble (m :: rest) Register.new = Except.ok w := by
  rw [encodeInstruction_cons line m rest ht, dispatch_rtype m hm] at h
  exact h

theorem encode_load (line m : String) (rest : List String) (w : String)
    (ht : Assembler.tokenize line = m :: rest) (hm : m ∈ Spec.loadMnemonics)
    (h : Assembler.new.encodeInstruction line = Except.ok w) :
    LoadInstruction.assemble (m :: rest) Register.new = Except.ok w := by
  rw [encodeInstruction_cons line m rest ht, dispatch_load m hm] at h
  exact h

theorem rtype_load_disjoint (m : String) (h₁ : m ∈ Spec.rtypeMnemonics)
    (h₂ : m ∈ Spec.loadMnemonics) : False := by
  have key : ∀ a ∈ Spec.rtypeMnemonics, a ∉ Spec.loadMnemonics := by decide
  exact key m h₁ h₂

/-! ## Injectivity of the register-register and load encodings -/

/-- C20: take two lines whose first tokens are among ADD, SUB, AND, OR, LB, LH, LW,
LBU, LHU and which `Assembler::encodeInstruction` encodes to the same 32-character
word. Then the two mnemonics are equal, both lines have three operand tokens, the
register tokens resolve to the same indices position by position, and for loads the
two immediate tokens parse to the same value. -/
theorem encoding_injective (line₁ line₂ m₁ m₂ : String) (r₁ r₂ : List String) (w : String)
    (ht₁ : Assembler.tokenize line₁ = m₁ :: r₁)
    (ht₂ : Assembler.tokenize line₂ = m₂ :: r₂)
    (hm₁ : m₁ ∈ Spec.rtypeMnemonics ∨ m₁ ∈ Spec.loadMnemonics)
    (hm₂ : m₂ ∈ Spec.rtypeMnemonics ∨ m₂ ∈ Spec.loadMnemonics)
    (h₁ : Assembler.new.encodeInstruction line₁ = Except.ok w)
    (h₂ : Assembler.new.encodeInstruction line₂ = Except.ok w)
    (hw : w.length = 32) :
    m₁ = m₂
    ∧ ∃ a₁ b₁ c₁ a₂ b₂ c₂ : String, r₁ = [a₁, b₁, c₁] ∧ r₂ = [a₂, b₂, c₂]
      ∧ Register.new.getRegNumber a₁ ≠ -1
      ∧ Register.new.getRegNumber a₁ = Register.new.getRegNumber a₂
      ∧ Register.new.getRegNumber b₁ ≠ -1
      ∧ Register.new.getRegNumber b₁ = Register.new.getRegNumber b₂
      ∧ (m₁ ∈ Spec.rtypeMnemonics →
          Register.new.getRegNumber c₁ ≠ -1
          ∧ Register.new.getRegNumber c₁ = Register.new.getRegNumber c₂)
      ∧ (m₁ ∈ Spec.loadMnemonics →
          ∃ n : Int, stoi c₁ = Except.ok n ∧ stoi c₂ = Except.ok n) := by
  have valid : ∀ i : Nat, i ≤ 31 → Register.new.getRegNumber (Spec.regName i) ≠ -1 := by
    intro i hi
    rw [getRegNumber_regName i hi]
    omega
  rcases hm₁ with hR₁ | hL₁ <;> rcases hm₂ with hR₂ | hL₂
  · obtain ⟨n₁, i₁, j₁, k₁, hn₁, hi₁, hj₁, hk₁, htok₁, hwd₁⟩ :=
      rtype_word_inv _ w (encode_rtype line₁ m₁ r₁ w ht₁ hR₁ h₁) hw
    obtain ⟨n₂, i₂, j₂, k₂, hn₂, hi₂, hj₂, hk₂, htok₂, hwd₂⟩ :=
      rtype_word_inv _ w (encode_rtype line₂ m₂ r₂ w ht₂ hR₂ h₂) hw
    obtain ⟨e₁, er₁⟩ := List.cons.inj htok₁
    obtain ⟨e₂, er₂⟩ := List.cons.inj htok₂
    subst e₁ e₂
    obtain ⟨hm, hi, hj, hk⟩ := rtype_words_eq m₁ m₂ i₁ j₁ k₁ i₂ j₂ k₂ hn₁ hn₂ hi₁ hj₁ hk₁
      hi₂ hj₂ hk₂ (hwd₁.symm.trans hwd₂)
    subst hi hj hk
    exact ⟨hm, _, _, _, _, _, _, er₁, er₂, valid _ hi₁, rfl, valid _ hj₁, rfl,
      fun _ => ⟨valid _ hk₁, rfl⟩, fun hL => (rtype_load_disjoint m₁ hR₁ hL).elim⟩
  · exfalso
    obtain ⟨n₁, i₁, j₁, k₁, _, _, _, _, _, hwd₁⟩ :=
      rtype_word_inv _ w (encode_rtype line₁ m₁ r₁ w ht₁ hR₁ h₁) hw
    obtain ⟨n₂, tok₂, i₂, j₂, v₂, _, _, _, _, _, _, _, hwd₂⟩ :=
      load_word_inv _ w (encode_load line₂ m₂ r₂ w ht₂ hL₂ h₂) hw
    exact rtype_load_words_ne _ _ (hwd₁.symm.trans hwd₂)
  · exfalso
    obtain ⟨n₁, tok₁, i₁, j₁, v₁, _, _, _, _, _, _, _, hwd₁⟩ :=
      load_word_inv _ w (encode_load line₁ m₁ r₁ w ht₁ hL₁ h₁) hw
    obtain ⟨n₂, i₂, j₂, k₂, _, _, _, _, _, hwd₂⟩ :=
      rtype_word_inv _ w (encode_rtype line₂ m₂ r₂ w ht₂ hR₂ h₂) hw
    exact rtype_load_words_ne _ _ (hwd₂.symm.trans hwd₁)
  · obtain ⟨n₁, tok₁, i₁, j₁, v₁, hn₁, hi₁, hj₁, hs₁, hlo₁, hhi₁, htok₁, hwd₁⟩ :=
      load_word_inv _ w (encode_load line₁ m₁ r₁ w ht₁ hL₁ h₁) hw
    obtain ⟨n₂, tok₂, i₂, j₂, v₂, hn₂, hi₂, hj₂, hs₂, hlo₂, hhi₂, htok₂, hwd₂⟩ :=
      load_word_inv _ w (encode_load line₂ m₂ r₂ w ht₂ hL₂ h₂) hw
    obtain ⟨e₁, er₁⟩ := List.cons.inj htok₁
    obtain ⟨e₂, er₂⟩ := List.cons.inj htok₂
    subst e₁ e₂
    obtain ⟨hm, hi, hj, hv⟩ := load_words_eq m₁ m₂ i₁ j₁ i₂ j₂ v₁ v₂ hn₁ hn₂ hi₁ hj₁
      hi₂ hj₂ ⟨hlo₁, hhi₁⟩ ⟨hlo₂, hhi₂⟩ (hwd₁.symm.trans hwd₂)
    subst hi hj hv
    exact ⟨hm, _, _, _, _, _, _, er₁, er₂, valid _ hi₁, rfl, valid _ hj₁, rfl,
      fun hR => (rtype_load_disjoint m₁ hR hL₁).elim, fun _ => ⟨v₁, hs₁, hs₂⟩⟩

/-- C20, instance: `LW x1, x2, 4` and `LW x1, x2, +4` are encoded as the same word,
so their immediate tokens have the same value. -/
theorem encoding_injective_witness : stoi "4" = stoi "+4" := by
  obtain ⟨_, a₁, b₁, c₁, a₂, b₂, c₂, hr₁, hr₂, _, _, _, _, _, hL⟩ :=
    encoding_injective "LW x1, x2, 4" "LW x1, x2, +4" "LW" "LW" ["x1", "x2", "4"]
      ["x1", "x2", "+4"] "00000000010000010010000010000011" (by decide) (by decide)
      (by decide) (by decide) (by decide) (by decide) (by decide)
  cases hr₁
  cases hr₂
  obtain ⟨n, e₁, e₂⟩ := hL (by decide)
  exact e₁.trans e₂.symm

end RiscvAssembler
